import Mathlib

/-!
# Arm conditional cleanup workflow: the CSEL rewrite and its sweep

A shallow embedding of `src/plugin.cpp`.  The plugin walks the low-level IL
(LLIL) of one function and collapses the idiom

    A: if (cond) goto B else goto C
    B: r = 1 ; goto D
    C: r = 0 ; goto D
    D: if (r != 0) goto E else goto F

into `A: if (cond) goto E else goto F`.

The IL itself belongs to the host framework.  Its objects are modelled as
plain data: an arena of instructions indexed by position, basic blocks as
index ranges, edges as lists of block identifiers.  A null `Ref<...>` is
`none`; dereferencing it is a fault, and a fault makes the embedded function
return `none`.
-/

namespace ACC

/-! ## Data model -/

/-- Operation tag of an IL instruction or expression.  Only `LLIL_IF` and
`LLIL_SET_REG` are inspected by the plugin; `LLIL_REG`, `LLIL_CONST`,
`LLIL_CMP_E` and `LLIL_CMP_NE` are the expression forms used to describe what a
condition tests; every other host operation is `LLIL_OTHER code`. -/
inductive LowLevelILOperation where
  | LLIL_NOP
  | LLIL_SET_REG
  | LLIL_GOTO
  | LLIL_IF
  | LLIL_REG
  | LLIL_CONST
  | LLIL_CMP_E
  | LLIL_CMP_NE
  | LLIL_OTHER (code : Nat)
  deriving DecidableEq, Repr

/-- Modelled from the spec: the host's instruction record (declared in
`lowlevelilinstruction.h`, which is not among the sources).  An instruction is
a tagged operation with an operand size and four raw operand slots
(`operands[0]` .. `operands[3]`).  For `LLIL_SET_REG` slot 0 is the destination
register and slot 1 the assigned expression; for `LLIL_IF` slot 0 is the
condition expression, slot 1 the true target and slot 2 the false target. -/
structure LowLevelILInstruction where
  operation : LowLevelILOperation
  size : Nat
  operand0 : Nat
  operand1 : Nat
  operand2 : Nat
  operand3 : Nat
  deriving DecidableEq, Repr

namespace LowLevelILInstruction

/-- The condition expression of an `LLIL_IF` (raw operand 0). -/
def GetConditionExpr (insn : LowLevelILInstruction) : Nat := insn.operand0

/-- The true target of an `LLIL_IF` (raw operand 1). -/
def GetTrueTarget (insn : LowLevelILInstruction) : Nat := insn.operand1

/-- The false target of an `LLIL_IF` (raw operand 2). -/
def GetFalseTarget (insn : LowLevelILInstruction) : Nat := insn.operand2

end LowLevelILInstruction

/-- An outgoing edge of a basic block.  `target` is the `Ref<BasicBlock>` of the
source: `none` is the null reference, `some k` refers to the `k`-th block of
the function (two references are equal exactly when they name the same block). -/
structure BasicBlockEdge where
  target : Option Nat
  deriving DecidableEq, Repr

/-- Modelled from the spec: a basic block is a start index, a length
(instruction count) and a list of outgoing edges. -/
structure BasicBlock where
  start : Nat
  length : Nat
  outgoingEdges : List BasicBlockEdge
  deriving DecidableEq, Repr

namespace BasicBlock

def GetStart (b : BasicBlock) : Nat := b.start

def GetLength (b : BasicBlock) : Nat := b.length

/-- One past the last instruction index of the block. -/
def GetEnd (b : BasicBlock) : Nat := b.start + b.length

def GetOutgoingEdges (b : BasicBlock) : List BasicBlockEdge := b.outgoingEdges

end BasicBlock

/-- Modelled from the spec: the function IR is an arena of instructions indexed
by position together with the list of its basic blocks.  `nonSSAExprIndex` is
the host's translation of an expression index to its non-SSA form.  `exprs` is
the host's arena of operand expressions, indexed by expression index (the
condition operand of an `LLIL_IF` and the assigned operand of an `LLIL_SET_REG`
are such indices); the plugin never reads it. -/
structure LowLevelILFunction where
  instructions : List LowLevelILInstruction
  blocks : List BasicBlock
  nonSSAExprIndex : Nat → Nat
  exprs : List LowLevelILInstruction := []

/-- A resolved or pending branch label (`BNLowLevelILLabel`). -/
structure BNLowLevelILLabel where
  resolved : Bool
  ref : Nat
  operand : Nat
  deriving DecidableEq, Repr

namespace LowLevelILFunction

/-- Instruction at an index.  An index past the end of the arena has no
instruction; reading it is a fault. -/
def GetInstruction (llil : LowLevelILFunction) (i : Nat) : Option LowLevelILInstruction :=
  llil.instructions[i]?

def GetBasicBlocks (llil : LowLevelILFunction) : List BasicBlock := llil.blocks

/-- Host operation: the block whose index range contains instruction `i`, or
the null reference when no block does. -/
def GetBasicBlockForInstruction (llil : LowLevelILFunction) (i : Nat) : Option BasicBlock :=
  llil.blocks.find? (fun b => decide (b.start ≤ i ∧ i < b.start + b.length))

/-- Follow a block reference held by an edge. -/
def GetBlock (llil : LowLevelILFunction) (k : Nat) : Option BasicBlock :=
  llil.blocks[k]?

def GetNonSSAExprIndex (llil : LowLevelILFunction) (expr : Nat) : Nat :=
  llil.nonSSAExprIndex expr

/-- Host operation: build a conditional branch on `operand` to the two labels.
The plugin only passes resolved labels, whose `operand` is the target
instruction index. -/
def If (_llil : LowLevelILFunction) (operand : Nat) (t f : BNLowLevelILLabel) :
    LowLevelILInstruction :=
  { operation := .LLIL_IF, size := 0, operand0 := operand,
    operand1 := t.operand, operand2 := f.operand, operand3 := 0 }

/-- Host operation: in-place replacement of the instruction at `index`.  The
position is kept; blocks and edges are only recomputed when the host
regenerates the IR, which happens after the sweep. -/
def Replace (llil : LowLevelILFunction) (index : Nat) (expr : LowLevelILInstruction) :
    LowLevelILFunction :=
  { llil with instructions := llil.instructions.set index expr }

end LowLevelILFunction

/-- The local lambda of `TryRewriteCSEL`: a resolved label for an index. -/
def GetLabelForIndex (index : Nat) : BNLowLevelILLabel :=
  { resolved := true, ref := 0, operand := index }

/-! ## The matcher and rewriter -/

open LowLevelILOperation in
/-- Embedding of `TryRewriteCSEL` (plugin.cpp, lines 51-109).  The result is
`none` on a fault, otherwise the returned boolean and the IR after the call. -/
def TryRewriteCSEL (llil : LowLevelILFunction) (index : Nat) :
    Option (Bool × LowLevelILFunction) :=
  match llil.GetInstruction index with
  | none => none
  | some insn =>
    if insn.operation ≠ LLIL_IF then some (false, llil) else
    let trueBlock := llil.GetBasicBlockForInstruction insn.GetTrueTarget
    let falseBlock := llil.GetBasicBlockForInstruction insn.GetFalseTarget
    match trueBlock with
    | none => none
    | some trueBlock =>
      if trueBlock.GetLength ≠ 2 then some (false, llil) else
      match falseBlock with
      | none => none
      | some falseBlock =>
        if falseBlock.GetLength ≠ 2 then some (false, llil) else
        match llil.GetInstruction trueBlock.GetStart with
        | none => none
        | some trueBlockInsn =>
          match llil.GetInstruction falseBlock.GetStart with
          | none => none
          | some falseBlockInsn =>
            if trueBlockInsn.operation ≠ LLIL_SET_REG ∨
                falseBlockInsn.operation ≠ LLIL_SET_REG then some (false, llil) else
            if trueBlockInsn.operand0 ≠ falseBlockInsn.operand0 then some (false, llil) else
            match trueBlock.GetOutgoingEdges, falseBlock.GetOutgoingEdges with
            | [trueEdge], [falseEdge] =>
              if trueEdge.target ≠ falseEdge.target then some (false, llil) else
              match trueEdge.target with
              | none => none
              | some realRef =>
                match llil.GetBlock realRef with
                | none => none
                | some realBlock =>
                  match llil.GetInstruction realBlock.GetStart with
                  | none => none
                  | some realBlockInsn =>
                    if realBlock.GetLength ≠ 1 ∨ realBlockInsn.operation ≠ LLIL_IF then
                      some (false, llil)
                    else
                      let realTrueLabel := GetLabelForIndex realBlockInsn.GetTrueTarget
                      let realFalseLabel := GetLabelForIndex realBlockInsn.GetFalseTarget
                      some (true, llil.Replace index
                        (llil.If (llil.GetNonSSAExprIndex insn.GetConditionExpr)
                          realTrueLabel realFalseLabel))
            | _, _ => some (false, llil)

/-! ## The driver -/

/-- Calls made to the host by `Run`, in order. -/
inductive HostCall where
  | LogWarn (functionStart : Nat)
  | GenerateSSAForm
  | Finalize
  deriving DecidableEq, Repr

/-- The analysis context handed to `Run`: the function start address and the
function's low-level IL, `none` when the host has none. -/
structure AnalysisContext where
  functionStart : Nat
  llil : Option LowLevelILFunction

def AnalysisContext.GetLowLevelILFunction (context : AnalysisContext) :
    Option LowLevelILFunction := context.llil

/-- What `Run` leaves behind: the IR as handed to the host for regeneration
(`none` when there was no IR) and the host calls it made. -/
structure RunResult where
  llil : Option LowLevelILFunction
  calls : List HostCall

/-- The inner loop of `Run` (line 123-124) over a list of instruction indices:
`changed |= TryRewriteCSEL(llil, i)` for each index in order. -/
def sweepInstructions (llil : LowLevelILFunction) (changed : Bool) :
    List Nat → Option (Bool × LowLevelILFunction)
  | [] => some (changed, llil)
  | i :: rest =>
    match TryRewriteCSEL llil i with
    | none => none
    | some (r, llil') => sweepInstructions llil' (changed || r) rest

/-- The outer loop of `Run` (line 122): every block, and within it every index
from `GetStart` up to `GetEnd`. -/
def sweepBlocks (llil : LowLevelILFunction) (changed : Bool) :
    List BasicBlock → Option (Bool × LowLevelILFunction)
  | [] => some (changed, llil)
  | block :: rest =>
    match sweepInstructions llil changed
        (List.range' block.GetStart (block.GetEnd - block.GetStart)) with
    | none => none
    | some (changed', llil') => sweepBlocks llil' changed' rest

/-- Embedding of `Run` (plugin.cpp, lines 111-130). -/
def Run (context : AnalysisContext) : Option RunResult :=
  match context.GetLowLevelILFunction with
  | none => some { llil := none, calls := [HostCall.LogWarn context.functionStart] }
  | some llil =>
    match sweepBlocks llil false llil.GetBasicBlocks with
    | none => none
    | some (changed, llil') =>
      if changed then
        some { llil := some llil', calls := [HostCall.GenerateSSAForm, HostCall.Finalize] }
      else
        some { llil := some llil', calls := [] }

/-! ## Sample functions -/

open LowLevelILOperation

/-- The sample scenario: `A = [0]`, `B = [1,2]`, `C = [3,4]`, `D = [5]`,
`E = [6]`, `F = [7]`; register 0 is assigned, expression 100 is `cond`. -/
def sampleIR : LowLevelILFunction where
  instructions :=
    [ ⟨LLIL_IF, 0, 100, 1, 3, 0⟩,
      ⟨LLIL_SET_REG, 8, 0, 101, 0, 0⟩,
      ⟨LLIL_GOTO, 0, 5, 0, 0, 0⟩,
      ⟨LLIL_SET_REG, 8, 0, 102, 0, 0⟩,
      ⟨LLIL_GOTO, 0, 5, 0, 0, 0⟩,
      ⟨LLIL_IF, 0, 103, 6, 7, 0⟩,
      ⟨LLIL_NOP, 0, 0, 0, 0, 0⟩,
      ⟨LLIL_NOP, 0, 0, 0, 0, 0⟩ ]
  blocks :=
    [ ⟨0, 1, [⟨some 1⟩, ⟨some 2⟩]⟩,
      ⟨1, 2, [⟨some 3⟩]⟩,
      ⟨3, 2, [⟨some 3⟩]⟩,
      ⟨5, 1, [⟨some 4⟩, ⟨some 5⟩]⟩,
      ⟨6, 1, []⟩,
      ⟨7, 1, []⟩ ]
  nonSSAExprIndex := id

/-- The sample scenario with the false stub three instructions long. -/
def longStubIR : LowLevelILFunction :=
  { sampleIR with
    instructions :=
      [ ⟨LLIL_IF, 0, 100, 1, 3, 0⟩,
        ⟨LLIL_SET_REG, 8, 0, 101, 0, 0⟩,
        ⟨LLIL_GOTO, 0, 6, 0, 0, 0⟩,
        ⟨LLIL_SET_REG, 8, 0, 102, 0, 0⟩,
        ⟨LLIL_NOP, 0, 0, 0, 0, 0⟩,
        ⟨LLIL_GOTO, 0, 6, 0, 0, 0⟩,
        ⟨LLIL_IF, 0, 103, 7, 8, 0⟩,
        ⟨LLIL_NOP, 0, 0, 0, 0, 0⟩,
        ⟨LLIL_NOP, 0, 0, 0, 0, 0⟩ ],
    blocks :=
      [ ⟨0, 1, [⟨some 1⟩, ⟨some 2⟩]⟩,
        ⟨1, 2, [⟨some 3⟩]⟩,
        ⟨3, 3, [⟨some 3⟩]⟩,
        ⟨6, 1, [⟨some 4⟩, ⟨some 5⟩]⟩,
        ⟨7, 1, []⟩,
        ⟨8, 1, []⟩ ] }

/-- The sample scenario with the stubs leaving for different blocks: the true
stub goes to `D`, the false stub to `E`. -/
def divergingIR : LowLevelILFunction :=
  { sampleIR with
    blocks :=
      [ ⟨0, 1, [⟨some 1⟩, ⟨some 2⟩]⟩,
        ⟨1, 2, [⟨some 3⟩]⟩,
        ⟨3, 2, [⟨some 4⟩]⟩,
        ⟨5, 1, [⟨some 4⟩, ⟨some 5⟩]⟩,
        ⟨6, 1, []⟩,
        ⟨7, 1, []⟩ ] }

/-- The sample scenario with the shared successor two instructions long
(a no-op in front of its branch). -/
def longSuccessorIR : LowLevelILFunction :=
  { sampleIR with
    instructions :=
      [ ⟨LLIL_IF, 0, 100, 1, 3, 0⟩,
        ⟨LLIL_SET_REG, 8, 0, 101, 0, 0⟩,
        ⟨LLIL_GOTO, 0, 5, 0, 0, 0⟩,
        ⟨LLIL_SET_REG, 8, 0, 102, 0, 0⟩,
        ⟨LLIL_GOTO, 0, 5, 0, 0, 0⟩,
        ⟨LLIL_NOP, 0, 0, 0, 0, 0⟩,
        ⟨LLIL_IF, 0, 103, 7, 8, 0⟩,
        ⟨LLIL_NOP, 0, 0, 0, 0, 0⟩,
        ⟨LLIL_NOP, 0, 0, 0, 0, 0⟩ ],
    blocks :=
      [ ⟨0, 1, [⟨some 1⟩, ⟨some 2⟩]⟩,
        ⟨1, 2, [⟨some 3⟩]⟩,
        ⟨3, 2, [⟨some 3⟩]⟩,
        ⟨5, 2, [⟨some 4⟩, ⟨some 5⟩]⟩,
        ⟨7, 1, []⟩,
        ⟨8, 1, []⟩ ] }

/-! ## The idiom, as a predicate -/

/-- The facts established by a successful match at `i`: the instruction, the
two stub blocks with their first instructions, the shared successor and its
instruction. -/
structure Matched (llil : LowLevelILFunction) (i : Nat)
    (insn realInsn : LowLevelILInstruction) : Prop where
  insn_eq : llil.GetInstruction i = some insn
  insn_if : insn.operation = LLIL_IF
  stubs : ∃ trueBlock falseBlock trueInsn falseInsn d realBlock,
    llil.GetBasicBlockForInstruction insn.GetTrueTarget = some trueBlock ∧
    llil.GetBasicBlockForInstruction insn.GetFalseTarget = some falseBlock ∧
    trueBlock.GetLength = 2 ∧ falseBlock.GetLength = 2 ∧
    llil.GetInstruction trueBlock.GetStart = some trueInsn ∧
    llil.GetInstruction falseBlock.GetStart = some falseInsn ∧
    trueInsn.operation = LLIL_SET_REG ∧ falseInsn.operation = LLIL_SET_REG ∧
    trueInsn.operand0 = falseInsn.operand0 ∧
    trueBlock.GetOutgoingEdges = [⟨some d⟩] ∧ falseBlock.GetOutgoingEdges = [⟨some d⟩] ∧
    llil.GetBlock d = some realBlock ∧ realBlock.GetLength = 1 ∧
    llil.GetInstruction realBlock.GetStart = some realInsn
  real_if : realInsn.operation = LLIL_IF

/-- The IR left by a rewrite at `i`. -/
def rewritten (llil : LowLevelILFunction) (i : Nat) (insn realInsn : LowLevelILInstruction) :
    LowLevelILFunction :=
  llil.Replace i (llil.If (llil.GetNonSSAExprIndex insn.GetConditionExpr)
    (GetLabelForIndex realInsn.GetTrueTarget) (GetLabelForIndex realInsn.GetFalseTarget))


/-- The idiom of the specification (section 4.1, steps 1 to 6) as a decidable
test on index `i`: an `LLIL_IF` whose two targets lie in two-instruction blocks
that start with `LLIL_SET_REG`s of one register operand, each with a single
edge to one shared block, itself a single `LLIL_IF`. -/
def IsIdiomHead (llil : LowLevelILFunction) (i : Nat) : Bool :=
  match llil.GetInstruction i with
  | none => false
  | some insn =>
    insn.operation == LLIL_IF &&
    match llil.GetBasicBlockForInstruction insn.GetTrueTarget,
        llil.GetBasicBlockForInstruction insn.GetFalseTarget with
    | some trueBlock, some falseBlock =>
      trueBlock.GetLength == 2 && falseBlock.GetLength == 2 &&
      (match llil.GetInstruction trueBlock.GetStart,
          llil.GetInstruction falseBlock.GetStart with
        | some trueInsn, some falseInsn =>
          trueInsn.operation == LLIL_SET_REG && falseInsn.operation == LLIL_SET_REG &&
          trueInsn.operand0 == falseInsn.operand0
        | _, _ => false) &&
      (match trueBlock.GetOutgoingEdges, falseBlock.GetOutgoingEdges with
        | [⟨some d⟩], [⟨some d'⟩] =>
          d == d' &&
          (match llil.GetBlock d with
            | some realBlock =>
              realBlock.GetLength == 1 &&
              (match llil.GetInstruction realBlock.GetStart with
                | some realInsn => realInsn.operation == LLIL_IF
                | none => false)
            | none => false)
        | _, _ => false)
    | _, _ => false

/-- The instruction indices visited by the sweep of `Run`, in visiting order. -/
def sweepIndices (llil : LowLevelILFunction) : List Nat :=
  llil.GetBasicBlocks.flatMap (fun b => List.range' b.GetStart (b.GetEnd - b.GetStart))

/-- The blocks partition the instruction index space: every instruction index
lies in exactly one block. -/
def BlocksPartition (llil : LowLevelILFunction) : Prop :=
  (sweepIndices llil).Perm (List.range llil.instructions.length)

/-- The number of instruction indices that head an instance of the idiom. -/
def idiomCount (llil : LowLevelILFunction) : Nat :=
  ((List.range llil.instructions.length).filter (IsIdiomHead llil)).length

/-- The relation between the IR at the start of a sweep and the IR after the
indices `visited` have been handled: the blocks, edges and the non-SSA
translation are the same, every instruction keeps its operation, and an
instruction differs only at a visited index that heads an instance of the
idiom in the starting IR. -/
def Retargeted (start mid : LowLevelILFunction) (visited : List Nat) : Prop :=
  mid.blocks = start.blocks ∧ mid.nonSSAExprIndex = start.nonSSAExprIndex ∧
  mid.instructions.length = start.instructions.length ∧
  ∀ k a, start.GetInstruction k = some a →
    ∃ a', mid.GetInstruction k = some a' ∧ a'.operation = a.operation ∧
      (¬ (k ∈ visited ∧ IsIdiomHead start k = true) → a' = a)

/-- Two instances of the idiom in one function: heads at indices 0 and 6,
stubs `[1,2]`, `[3,4]` and `[7,8]`, `[9,10]`, shared successors `[5]` and
`[11]`. -/
def twoIdiomIR : LowLevelILFunction where
  instructions :=
    [ ⟨LLIL_IF, 0, 100, 1, 3, 0⟩,
      ⟨LLIL_SET_REG, 8, 0, 101, 0, 0⟩,
      ⟨LLIL_GOTO, 0, 5, 0, 0, 0⟩,
      ⟨LLIL_SET_REG, 8, 0, 102, 0, 0⟩,
      ⟨LLIL_GOTO, 0, 5, 0, 0, 0⟩,
      ⟨LLIL_IF, 0, 103, 6, 12, 0⟩,
      ⟨LLIL_IF, 0, 104, 7, 9, 0⟩,
      ⟨LLIL_SET_REG, 8, 1, 105, 0, 0⟩,
      ⟨LLIL_GOTO, 0, 11, 0, 0, 0⟩,
      ⟨LLIL_SET_REG, 8, 1, 106, 0, 0⟩,
      ⟨LLIL_GOTO, 0, 11, 0, 0, 0⟩,
      ⟨LLIL_IF, 0, 107, 12, 13, 0⟩,
      ⟨LLIL_NOP, 0, 0, 0, 0, 0⟩,
      ⟨LLIL_NOP, 0, 0, 0, 0, 0⟩ ]
  blocks :=
    [ ⟨0, 1, [⟨some 1⟩, ⟨some 2⟩]⟩,
      ⟨1, 2, [⟨some 3⟩]⟩,
      ⟨3, 2, [⟨some 3⟩]⟩,
      ⟨5, 1, [⟨some 4⟩, ⟨some 8⟩]⟩,
      ⟨6, 1, [⟨some 5⟩, ⟨some 6⟩]⟩,
      ⟨7, 2, [⟨some 7⟩]⟩,
      ⟨9, 2, [⟨some 7⟩]⟩,
      ⟨11, 1, [⟨some 8⟩, ⟨some 9⟩]⟩,
      ⟨12, 1, []⟩,
      ⟨13, 1, []⟩ ]
  nonSSAExprIndex := id

/-- Chained instances of the idiom: head `A = [0]` with stubs `[1,2]`, `[3,4]`
and shared successor `D = [5]`; `D` is itself a head with stubs `E = [6,7]`,
`F = [8,9]` and shared successor `G = [10]`, whose targets are `H = [11]` and
`I = [12]`.  The block of `A` comes first in the block list. -/
def chainedIR : LowLevelILFunction where
  instructions :=
    [ ⟨LLIL_IF, 0, 100, 1, 3, 0⟩,
      ⟨LLIL_SET_REG, 8, 0, 101, 0, 0⟩,
      ⟨LLIL_GOTO, 0, 5, 0, 0, 0⟩,
      ⟨LLIL_SET_REG, 8, 0, 102, 0, 0⟩,
      ⟨LLIL_GOTO, 0, 5, 0, 0, 0⟩,
      ⟨LLIL_IF, 0, 103, 6, 8, 0⟩,
      ⟨LLIL_SET_REG, 8, 1, 104, 0, 0⟩,
      ⟨LLIL_GOTO, 0, 10, 0, 0, 0⟩,
      ⟨LLIL_SET_REG, 8, 1, 105, 0, 0⟩,
      ⟨LLIL_GOTO, 0, 10, 0, 0, 0⟩,
      ⟨LLIL_IF, 0, 106, 11, 12, 0⟩,
      ⟨LLIL_NOP, 0, 0, 0, 0, 0⟩,
      ⟨LLIL_NOP, 0, 0, 0, 0, 0⟩ ]
  blocks :=
    [ ⟨0, 1, [⟨some 1⟩, ⟨some 2⟩]⟩,
      ⟨1, 2, [⟨some 3⟩]⟩,
      ⟨3, 2, [⟨some 3⟩]⟩,
      ⟨5, 1, [⟨some 4⟩, ⟨some 5⟩]⟩,
      ⟨6, 2, [⟨some 6⟩]⟩,
      ⟨8, 2, [⟨some 6⟩]⟩,
      ⟨10, 1, [⟨some 7⟩, ⟨some 8⟩]⟩,
      ⟨11, 1, []⟩,
      ⟨12, 1, []⟩ ]
  nonSSAExprIndex := id

/-- The function `chainedIR` with the block of `D` listed before the block of
`A`; the instructions are the same, the edges name the same blocks. -/
def chainedSuccessorFirstIR : LowLevelILFunction :=
  { chainedIR with
    blocks :=
      [ ⟨5, 1, [⟨some 4⟩, ⟨some 5⟩]⟩,
        ⟨0, 1, [⟨some 2⟩, ⟨some 3⟩]⟩,
        ⟨1, 2, [⟨some 0⟩]⟩,
        ⟨3, 2, [⟨some 0⟩]⟩,
        ⟨6, 2, [⟨some 6⟩]⟩,
        ⟨8, 2, [⟨some 6⟩]⟩,
        ⟨10, 1, [⟨some 7⟩, ⟨some 8⟩]⟩,
        ⟨11, 1, []⟩,
        ⟨12, 1, []⟩ ] }

/-- Two instruction slots that the matcher cannot tell apart as the branch under
test: both empty, or both filled with the same operation and, for an
`LLIL_IF`, the same two targets. -/
def SameBranch (o1 o2 : Option LowLevelILInstruction) : Prop :=
  match o1, o2 with
  | none, none => True
  | some a1, some a2 =>
    a2.operation = a1.operation ∧
    (a1.operation = LLIL_IF →
      a2.GetTrueTarget = a1.GetTrueTarget ∧ a2.GetFalseTarget = a1.GetFalseTarget)
  | _, _ => False

/-- Two instruction slots that the matcher cannot tell apart as the first
instruction of a block: both empty, or both filled with the same operation and,
for an `LLIL_SET_REG`, the same destination register operand. -/
def SameBlockStart (o1 o2 : Option LowLevelILInstruction) : Prop :=
  match o1, o2 with
  | none, none => True
  | some a1, some a2 =>
    a2.operation = a1.operation ∧
    (a1.operation = LLIL_SET_REG → a2.operand0 = a1.operand0)
  | _, _ => False

/-- Two instruction slots that agree up to what the stubs assign and what a
branch tests: both empty, or both filled with the same operation, the same
destination register operand for an `LLIL_SET_REG` and the same two targets for
an `LLIL_IF`.  The assigned expression of an `LLIL_SET_REG` and the condition of
an `LLIL_IF` are free. -/
def SameUpToValues (o1 o2 : Option LowLevelILInstruction) : Prop :=
  match o1, o2 with
  | none, none => True
  | some a1, some a2 =>
    a2.operation = a1.operation ∧
    (a1.operation = LLIL_SET_REG → a2.operand0 = a1.operand0) ∧
    (a1.operation = LLIL_IF →
      a2.GetTrueTarget = a1.GetTrueTarget ∧ a2.GetFalseTarget = a1.GetFalseTarget)
  | _, _ => False

/-- The first instruction index of the block that the single edge of the true
stub of the branch at `i` leads to, when all of these exist. -/
def sharedSuccessor (llil : LowLevelILFunction) (i : Nat) : Option Nat :=
  match llil.GetInstruction i with
  | none => none
  | some insn =>
    match llil.GetBasicBlockForInstruction insn.GetTrueTarget with
    | none => none
    | some trueBlock =>
      match trueBlock.GetOutgoingEdges with
      | [⟨some d⟩] => (llil.GetBlock d).map BasicBlock.GetStart
      | _ => none

/-- The sample scenario with the assigned values of the two stubs swapped, the
second instruction of each stub replaced and another condition tested by the
shared successor. -/
def swappedIR : LowLevelILFunction :=
  { sampleIR with
    instructions :=
      [ ⟨LLIL_IF, 0, 100, 1, 3, 0⟩,
        ⟨LLIL_SET_REG, 8, 0, 102, 0, 0⟩,
        ⟨LLIL_NOP, 0, 0, 0, 0, 0⟩,
        ⟨LLIL_SET_REG, 8, 0, 101, 0, 0⟩,
        ⟨LLIL_OTHER 7, 0, 5, 0, 0, 0⟩,
        ⟨LLIL_IF, 0, 110, 6, 7, 0⟩,
        ⟨LLIL_NOP, 0, 0, 0, 0, 0⟩,
        ⟨LLIL_NOP, 0, 0, 0, 0, 0⟩ ] }

/-- The sample scenario with the second instruction of the true stub (index 2)
replaced by a copy of the branch of `A`. -/
def stubBranchIR : LowLevelILFunction :=
  { sampleIR with
    instructions := sampleIR.instructions.set 2 ⟨LLIL_IF, 0, 100, 1, 3, 0⟩ }

/-- The sample scenario with the true target of `A` pointing at index 20, which
lies in no basic block. -/
def unresolvedTargetIR : LowLevelILFunction :=
  { sampleIR with
    instructions :=
      [ ⟨LLIL_IF, 0, 100, 20, 3, 0⟩,
        ⟨LLIL_SET_REG, 8, 0, 101, 0, 0⟩,
        ⟨LLIL_GOTO, 0, 5, 0, 0, 0⟩,
        ⟨LLIL_SET_REG, 8, 0, 102, 0, 0⟩,
        ⟨LLIL_GOTO, 0, 5, 0, 0, 0⟩,
        ⟨LLIL_IF, 0, 103, 6, 7, 0⟩,
        ⟨LLIL_NOP, 0, 0, 0, 0, 0⟩,
        ⟨LLIL_NOP, 0, 0, 0, 0, 0⟩ ] }

/-- The sample scenario with the single edge of each stub lacking its target
block (a null reference). -/
def missingEdgeTargetIR : LowLevelILFunction :=
  { sampleIR with
    blocks :=
      [ ⟨0, 1, [⟨some 1⟩, ⟨some 2⟩]⟩,
        ⟨1, 2, [⟨none⟩]⟩,
        ⟨3, 2, [⟨none⟩]⟩,
        ⟨5, 1, [⟨some 4⟩, ⟨some 5⟩]⟩,
        ⟨6, 1, []⟩,
        ⟨7, 1, []⟩ ] }

/-- The registers read by the expression with index `e` of an expression arena:
an `LLIL_REG` reads its register operand, a comparison reads what its two
operand expressions read, anything else reads nothing.  `fuel` bounds the
nesting depth. -/
def exprRegisters (exprs : List LowLevelILInstruction) : Nat → Nat → List Nat
  | 0, _ => []
  | fuel + 1, e =>
    match exprs[e]? with
    | none => []
    | some x =>
      match x.operation with
      | LLIL_REG => [x.operand0]
      | LLIL_CMP_E => exprRegisters exprs fuel x.operand0 ++ exprRegisters exprs fuel x.operand1
      | LLIL_CMP_NE => exprRegisters exprs fuel x.operand0 ++ exprRegisters exprs fuel x.operand1
      | _ => []

/-- The sample scenario with its expressions spelled out: `A` tests
`reg3 == 0`, the stubs assign the constants 1 and 0 to register 0, and the
shared successor `D` tests `reg5 != 0`, an expression that reads register 5
only. -/
def gapIR : LowLevelILFunction where
  instructions :=
    [ ⟨LLIL_IF, 0, 2, 1, 3, 0⟩,
      ⟨LLIL_SET_REG, 8, 0, 3, 0, 0⟩,
      ⟨LLIL_GOTO, 0, 5, 0, 0, 0⟩,
      ⟨LLIL_SET_REG, 8, 0, 4, 0, 0⟩,
      ⟨LLIL_GOTO, 0, 5, 0, 0, 0⟩,
      ⟨LLIL_IF, 0, 7, 6, 7, 0⟩,
      ⟨LLIL_NOP, 0, 0, 0, 0, 0⟩,
      ⟨LLIL_NOP, 0, 0, 0, 0, 0⟩ ]
  blocks := sampleIR.blocks
  nonSSAExprIndex := id
  exprs :=
    [ ⟨LLIL_REG, 8, 3, 0, 0, 0⟩,
      ⟨LLIL_CONST, 8, 0, 0, 0, 0⟩,
      ⟨LLIL_CMP_E, 8, 0, 1, 0, 0⟩,
      ⟨LLIL_CONST, 8, 1, 0, 0, 0⟩,
      ⟨LLIL_CONST, 8, 0, 0, 0, 0⟩,
      ⟨LLIL_REG, 8, 5, 0, 0, 0⟩,
      ⟨LLIL_CONST, 8, 0, 0, 0, 0⟩,
      ⟨LLIL_CMP_NE, 8, 5, 6, 0, 0⟩ ]

/-- Branch-target well-formedness: the true and the false target of every
`LLIL_IF` of the function are start indices of basic blocks of the function. -/
def BranchTargetsStartBlocks (llil : LowLevelILFunction) : Prop :=
  ∀ a ∈ llil.instructions, a.operation = LLIL_IF →
    (∃ b ∈ llil.blocks, b.GetStart = a.GetTrueTarget) ∧
    (∃ b ∈ llil.blocks, b.GetStart = a.GetFalseTarget)

/-- No chained instances: the shared successor of a head of the idiom is not
itself a head of the idiom. -/
def HeadsUnchained (llil : LowLevelILFunction) : Prop :=
  ∀ i ∈ sweepIndices llil, IsIdiomHead llil i = true →
    ∀ s ∈ sharedSuccessor llil i, IsIdiomHead llil s = false

/-- The relation `Retargeted`, together with what the visited heads hold: the
branch at a visited head has the targets that the `LLIL_IF` of its shared
successor has in the starting IR. -/
def Settled (start mid : LowLevelILFunction) (visited : List Nat) : Prop :=
  Retargeted start mid visited ∧
  ∀ k ∈ visited, IsIdiomHead start k = true →
    ∃ s rI a', sharedSuccessor start k = some s ∧ start.GetInstruction s = some rI ∧
      rI.operation = LLIL_IF ∧ mid.GetInstruction k = some a' ∧ a'.operation = LLIL_IF ∧
      a'.GetTrueTarget = rI.GetTrueTarget ∧ a'.GetFalseTarget = rI.GetFalseTarget

/-! ## Basic facts about the host operations -/

theorem GetInstruction_lt {llil : LowLevelILFunction} {i : Nat} {insn : LowLevelILInstruction}
    (h : llil.GetInstruction i = some insn) : i < llil.instructions.length := by
  simp only [LowLevelILFunction.GetInstruction] at h
  exact (List.getElem?_eq_some_iff.mp h).1

theorem GetInstruction_Replace_self {llil : LowLevelILFunction} {i : Nat}
    (expr : LowLevelILInstruction) (h : i < llil.instructions.length) :
    (llil.Replace i expr).GetInstruction i = some expr := by
  simp [LowLevelILFunction.GetInstruction, LowLevelILFunction.Replace, h]

theorem GetInstruction_Replace_ne (llil : LowLevelILFunction) {i j : Nat}
    (expr : LowLevelILInstruction) (h : j ≠ i) :
    (llil.Replace i expr).GetInstruction j = llil.GetInstruction j := by
  simp [LowLevelILFunction.GetInstruction, LowLevelILFunction.Replace,
    List.getElem?_set_ne (Ne.symm h)]

/-- A match makes `TryRewriteCSEL` return `true` with the rewritten IR. -/
theorem TryRewriteCSEL_of_Matched {llil : LowLevelILFunction} {i : Nat}
    {insn realInsn : LowLevelILInstruction} (m : Matched llil i insn realInsn) :
    TryRewriteCSEL llil i = some (true, rewritten llil i insn realInsn) := by
  obtain ⟨hinsn, hif, ⟨tb, fb, tI, fI, d, rb, htb, hfb, htl, hfl, hti, hfi, hts, hfs, hreg, hte,
    hfe, hrb, hrl, hri⟩, hrif⟩ := m
  simp [TryRewriteCSEL, rewritten, hinsn, hif, htb, hfb, htl, hfl, hti, hfi, hts, hfs, hreg,
    hte, hfe, hrb, hrl, hri, hrif]

/-- Every returning call of `TryRewriteCSEL` either reports `false` and hands
back the IR it was given, or reports `true` after a match and hands back the
rewritten IR. -/
theorem TryRewriteCSEL_result {llil l' : LowLevelILFunction} {i : Nat} {b : Bool}
    (h : TryRewriteCSEL llil i = some (b, l')) :
    (b = false ∧ l' = llil) ∨
    (b = true ∧ ∃ insn realInsn, Matched llil i insn realInsn ∧
      l' = rewritten llil i insn realInsn) := by
  unfold TryRewriteCSEL at h
  dsimp only at h
  repeat' split at h
  all_goals first
    | (exfalso; exact Option.noConfusion h)
    | (left; simp only [Option.some.injEq, Prod.mk.injEq] at h; exact ⟨h.1.symm, h.2.symm⟩)
    | skip
  simp only [Option.some.injEq, Prod.mk.injEq] at h
  rename_i x9 insn hinsn hif x8 tb htb htl x7 fb hfb hfl x6 tI hti x5 fI hfi hset hreg x4 x3
    te fe hte hfe hsame x2 d hd x1 rb hrb x0 rI hri hreal
  simp only [ne_eq, not_or, not_not] at hif htl hfl hset hreg hsame hreal
  have hte' : tb.GetOutgoingEdges = [⟨some d⟩] := by
    rw [hte, ← hd]
  have hfe' : fb.GetOutgoingEdges = [⟨some d⟩] := by
    rw [hfe, ← hd, hsame]
  exact Or.inr ⟨h.1.symm, insn, rI,
    ⟨hinsn, hif, ⟨tb, fb, tI, fI, d, rb, htb, hfb, htl, hfl, hti, hfi, hset.1, hset.2, hreg,
      hte', hfe', hrb, hreal.1, hri⟩, hreal.2⟩, h.2.symm⟩

/-- The boolean returned by `TryRewriteCSEL` at `j` (and whether it faults)
depends only on the instruction at `j`, the blocks, the operation of every
other instruction and the register operand of the `LLIL_SET_REG`s. -/
theorem verdict_congr (l1 l2 : LowLevelILFunction) (j : Nat)
    (f : Nat → LowLevelILInstruction → LowLevelILInstruction)
    (hb : l2.blocks = l1.blocks)
    (hf : ∀ k, l2.GetInstruction k = (l1.GetInstruction k).map (f k))
    (hj : ∀ a, l1.GetInstruction j = some a → f j a = a)
    (hop : ∀ k a, (f k a).operation = a.operation)
    (hreg : ∀ k a, a.operation = LLIL_SET_REG → (f k a).operand0 = a.operand0) :
    (TryRewriteCSEL l2 j).map Prod.fst = (TryRewriteCSEL l1 j).map Prod.fst := by
  have hBB : ∀ t, l2.GetBasicBlockForInstruction t = l1.GetBasicBlockForInstruction t := by
    intro t; simp [LowLevelILFunction.GetBasicBlockForInstruction, hb]
  have hGB : ∀ d, l2.GetBlock d = l1.GetBlock d := by
    intro d; simp [LowLevelILFunction.GetBlock, hb]
  unfold TryRewriteCSEL
  simp only [hBB, hGB, hf]
  cases h0 : l1.GetInstruction j with
  | none => rfl
  | some insn =>
    simp only [Option.map_some', hj _ h0]
    split
    · rfl
    · cases h1 : l1.GetBasicBlockForInstruction insn.GetTrueTarget with
      | none => rfl
      | some tb =>
        dsimp only
        split
        · rfl
        · cases h2 : l1.GetBasicBlockForInstruction insn.GetFalseTarget with
          | none => rfl
          | some fb =>
            dsimp only
            split
            · rfl
            · cases h3 : l1.GetInstruction tb.GetStart with
              | none => rfl
              | some tI =>
                cases h4 : l1.GetInstruction fb.GetStart with
                | none => rfl
                | some fI =>
                  simp only [Option.map_some', hop]
                  split
                  · rfl
                  · rename_i hset
                    simp only [ne_eq, not_or, not_not] at hset
                    simp only [hreg _ _ hset.1, hreg _ _ hset.2]
                    split
                    · rfl
                    · split
                      · split
                        · rfl
                        · split
                          · rfl
                          · split
                            · rfl
                            · cases h5 : l1.GetInstruction _ with
                              | none => simp [h5]
                              | some rI =>
                                simp only [Option.map_some', hop]
                                split <;> rfl
                      · rfl

/-- A match is an instance of the idiom. -/
theorem IsIdiomHead_of_Matched {llil : LowLevelILFunction} {i : Nat}
    {insn realInsn : LowLevelILInstruction} (m : Matched llil i insn realInsn) :
    IsIdiomHead llil i = true := by
  obtain ⟨hinsn, hif, ⟨tb, fb, tI, fI, d, rb, htb, hfb, htl, hfl, hti, hfi, hts, hfs, hreg, hte,
    hfe, hrb, hrl, hri⟩, hrif⟩ := m
  simp [IsIdiomHead, hinsn, hif, htb, hfb, htl, hfl, hti, hfi, hts, hfs, hreg,
    hte, hfe, hrb, hrl, hri, hrif]

/-- An instance of the idiom is a match. -/
theorem Matched_of_IsIdiomHead {llil : LowLevelILFunction} {i : Nat}
    (h : IsIdiomHead llil i = true) : ∃ insn realInsn, Matched llil i insn realInsn := by
  unfold IsIdiomHead at h
  repeat' split at h
  all_goals first
    | (exfalso; exact Bool.noConfusion h)
    | (exfalso; simp at h; done)
    | skip
  rename_i x8 insn hinsn x7 x6 tb fb htb hfb x5 x4 tI fI hti hfi x3 x2 d d' hte hfe x1 rb hrb
    x0 rI hri
  simp only [Bool.and_eq_true, beq_iff_eq] at h
  obtain ⟨hif, ⟨⟨htl, hfl⟩, ⟨hts, hfs⟩, hreg⟩, hd, hrl, hrif⟩ := h
  subst hd
  exact ⟨insn, rI, hinsn, hif, ⟨tb, fb, tI, fI, d, rb, htb, hfb, htl, hfl, hti, hfi, hts, hfs,
    hreg, hte, hfe, hrb, hrl, hri⟩, hrif⟩

/-- The boolean returned by `TryRewriteCSEL` is the idiom test. -/
theorem TryRewriteCSEL_verdict {llil l' : LowLevelILFunction} {i : Nat} {b : Bool}
    (h : TryRewriteCSEL llil i = some (b, l')) : b = IsIdiomHead llil i := by
  rcases TryRewriteCSEL_result h with ⟨hb, _⟩ | ⟨hb, insn, rI, m, _⟩
  · subst hb
    cases hh : IsIdiomHead llil i with
    | false => rfl
    | true =>
      obtain ⟨insn, rI, m⟩ := Matched_of_IsIdiomHead hh
      rw [TryRewriteCSEL_of_Matched m] at h
      simp at h
  · rw [hb, IsIdiomHead_of_Matched m]
/-- Sweeping a concatenation is sweeping the first part and then the second. -/
theorem sweepInstructions_append (llil : LowLevelILFunction) (changed : Bool)
    (xs ys : List Nat) :
    sweepInstructions llil changed (xs ++ ys) =
      (sweepInstructions llil changed xs).bind (fun p => sweepInstructions p.2 p.1 ys) := by
  induction xs generalizing llil changed with
  | nil => rfl
  | cons x xs ih =>
    simp only [List.cons_append, sweepInstructions]
    cases TryRewriteCSEL llil x with
    | none => rfl
    | some p => exact ih p.2 (changed || p.1)

/-- The nested loops of `Run` visit the flattened list of block ranges. -/
theorem sweepBlocks_eq_sweepInstructions (llil : LowLevelILFunction) (changed : Bool)
    (blocks : List BasicBlock) :
    sweepBlocks llil changed blocks =
      sweepInstructions llil changed
        (blocks.flatMap (fun b => List.range' b.GetStart (b.GetEnd - b.GetStart))) := by
  induction blocks generalizing llil changed with
  | nil => rfl
  | cons b bs ih =>
    simp only [sweepBlocks, List.flatMap_cons, sweepInstructions_append]
    cases sweepInstructions llil changed (List.range' b.GetStart (b.GetEnd - b.GetStart)) with
    | none => rfl
    | some p => exact ih p.2 p.1

/-- A sweep over indices that all report `false` changes nothing. -/
theorem sweepInstructions_all_false (llil : LowLevelILFunction) (changed : Bool)
    (indices : List Nat)
    (hall : ∀ j ∈ indices, ∃ l, TryRewriteCSEL llil j = some (false, l)) :
    sweepInstructions llil changed indices = some (changed, llil) := by
  induction indices with
  | nil => rfl
  | cons j rest ih =>
    obtain ⟨l, hl⟩ := hall j (List.mem_cons_self _ _)
    have hl' : l = llil := by
      rcases TryRewriteCSEL_result hl with ⟨_, h⟩ | ⟨hb, _⟩
      · exact h
      · exact absurd hb (by decide)
    subst hl'
    simp only [sweepInstructions, hl, Bool.or_false]
    exact ih (fun k hk => hall k (List.mem_cons_of_mem _ hk))

/-- A call that does not fault returns the idiom test. -/
theorem TryRewriteCSEL_returns {llil : LowLevelILFunction} {i : Nat}
    (h : TryRewriteCSEL llil i ≠ none) :
    ∃ l, TryRewriteCSEL llil i = some (IsIdiomHead llil i, l) := by
  cases hr : TryRewriteCSEL llil i with
  | none => exact absurd hr h
  | some p =>
    obtain ⟨b, l⟩ := p
    rw [TryRewriteCSEL_verdict hr] 
    exact ⟨l, rfl⟩
/-- The head of an instance of the idiom is an `LLIL_IF`. -/
theorem IsIdiomHead_operation {llil : LowLevelILFunction} {i : Nat}
    {a : LowLevelILInstruction} (h : IsIdiomHead llil i = true)
    (ha : llil.GetInstruction i = some a) : a.operation = LLIL_IF := by
  obtain ⟨insn, rI, m⟩ := Matched_of_IsIdiomHead h
  have := m.insn_eq
  rw [ha] at this
  cases this
  exact m.insn_if

theorem GetInstruction_eq_none_iff {llil : LowLevelILFunction} {k : Nat} :
    llil.GetInstruction k = none ↔ llil.instructions.length ≤ k := by
  simp [LowLevelILFunction.GetInstruction]

theorem Retargeted.refl (llil : LowLevelILFunction) : Retargeted llil llil [] :=
  ⟨rfl, rfl, rfl, fun _ a h => ⟨a, h, rfl, fun _ => rfl⟩⟩

/-- At an index not yet visited the matcher decides as on the starting IR. -/
theorem Retargeted.verdict {start mid : LowLevelILFunction} {visited : List Nat} {j : Nat}
    (h : Retargeted start mid visited) (hj : j ∉ visited) :
    (TryRewriteCSEL mid j).map Prod.fst = (TryRewriteCSEL start j).map Prod.fst := by
  obtain ⟨hb, _, hlen, hins⟩ := h
  refine verdict_congr start mid j
    (fun k a => match mid.GetInstruction k with
      | some a' =>
        if a'.operation = a.operation ∧ (a.operation = LLIL_SET_REG → a'.operand0 = a.operand0)
        then a' else a
      | none => a) hb ?_ ?_ ?_ ?_
  · intro k
    cases hk : start.GetInstruction k with
    | none =>
      rw [GetInstruction_eq_none_iff] at hk
      rw [Option.map_none', GetInstruction_eq_none_iff, hlen]
      exact hk
    | some a =>
      obtain ⟨a', ha', hop, hsame⟩ := hins k a hk
      have hreg : a.operation = LLIL_SET_REG → a'.operand0 = a.operand0 := by
        intro hs
        have : a' = a := by
          apply hsame
          rintro ⟨_, hh⟩
          have := IsIdiomHead_operation hh hk
          rw [hs] at this
          cases this
        rw [this]
      simp only [ha', hop, Option.map_some', true_and]
      rw [if_pos hreg]
  · intro a ha
    obtain ⟨a', ha', _, hsame⟩ := hins j a ha
    have : a' = a := hsame (fun hh => hj hh.1)
    simp [ha', this]
  · intro k a
    dsimp only
    split
    · split
      · rename_i hc; exact hc.1
      · rfl
    · rfl
  · intro k a hs
    dsimp only
    split
    · split
      · rename_i hc; exact hc.2 hs
      · rfl
    · rfl
theorem Retargeted.mono {start mid : LowLevelILFunction} {visited : List Nat}
    (h : Retargeted start mid visited) (more : List Nat) :
    Retargeted start mid (visited ++ more) := by
  obtain ⟨hb, hn, hlen, hins⟩ := h
  refine ⟨hb, hn, hlen, fun k a hk => ?_⟩
  obtain ⟨a', ha', hop, hsame⟩ := hins k a hk
  exact ⟨a', ha', hop, fun hnot => hsame (fun hh => hnot ⟨List.mem_append_left _ hh.1, hh.2⟩)⟩

/-- One more call of the sweep: the verdict is the idiom test on the starting
IR, and the relation to the starting IR is kept. -/
theorem Retargeted.step {start mid : LowLevelILFunction} {visited : List Nat} {j : Nat}
    (h : Retargeted start mid visited) (hj : j ∉ visited)
    (hret : TryRewriteCSEL start j ≠ none) :
    ∃ mid', TryRewriteCSEL mid j = some (IsIdiomHead start j, mid') ∧
      Retargeted start mid' (visited ++ [j]) := by
  obtain ⟨l, hl⟩ := TryRewriteCSEL_returns hret
  have hv := h.verdict hj
  rw [hl] at hv
  cases hm : TryRewriteCSEL mid j with
  | none => rw [hm] at hv; simp at hv
  | some p =>
    obtain ⟨b, mid'⟩ := p
    rw [hm] at hv
    simp only [Option.map_some', Option.some.injEq] at hv
    subst hv
    refine ⟨mid', rfl, ?_⟩
    rcases TryRewriteCSEL_result hm with ⟨_, hsame⟩ | ⟨hb, insn, rI, m, hnew⟩
    · rw [hsame]
      exact h.mono [j]
    · obtain ⟨hbl, hn, hlen, hins⟩ := h
      subst hnew
      refine ⟨hbl, hn, ?_, fun k a hk => ?_⟩
      · simp [rewritten, LowLevelILFunction.Replace, hlen]
      · by_cases hkj : k = j
        · subst hkj
          refine ⟨_, GetInstruction_Replace_self _ (GetInstruction_lt m.insn_eq), ?_, ?_⟩
          · exact (IsIdiomHead_operation hb hk).symm
          · intro hnot
            exact absurd ⟨List.mem_append_right _ (List.mem_singleton_self _), hb⟩ hnot
        · obtain ⟨a', ha', hop, hsame⟩ := hins k a hk
          refine ⟨a', ?_, hop, fun hnot => hsame (fun hh => hnot ⟨List.mem_append_left _ hh.1, hh.2⟩)⟩
          rw [← ha']
          exact GetInstruction_Replace_ne mid _ hkj

/-- A sweep over indices not visited before, none repeated, returns the
disjunction of the idiom tests on the starting IR. -/
theorem sweepInstructions_Retargeted (start : LowLevelILFunction) (rest : List Nat) :
    ∀ (visited : List Nat) (mid : LowLevelILFunction) (changed : Bool),
      Retargeted start mid visited → (visited ++ rest).Nodup →
      (∀ i ∈ rest, TryRewriteCSEL start i ≠ none) →
      ∃ final, sweepInstructions mid changed rest =
          some (changed || rest.any (IsIdiomHead start), final) ∧
        Retargeted start final (visited ++ rest) := by
  induction rest with
  | nil =>
    intro visited mid changed h _ _
    exact ⟨mid, by simp [sweepInstructions], by simpa using h⟩
  | cons j rest ih =>
    intro visited mid changed h hnd hret
    have hj : j ∉ visited := by
      intro hmem
      have := List.nodup_append.mp hnd
      exact this.2.2 hmem (List.mem_cons_self _ _) 
    obtain ⟨mid', hstep, hR⟩ := h.step hj (hret j (List.mem_cons_self _ _))
    have hnd' : ((visited ++ [j]) ++ rest).Nodup := by simpa using hnd
    obtain ⟨final, hfin, hRf⟩ := ih (visited ++ [j]) mid' (changed || IsIdiomHead start j) hR hnd'
      (fun i hi => hret i (List.mem_cons_of_mem _ hi))
    refine ⟨final, ?_, by simpa using hRf⟩
    simp only [sweepInstructions, hstep, hfin, List.any_cons, Bool.or_assoc]

/-! ## The matcher and rewriter: claims C1 to C8 -/

/-- C1: when the instruction at `i` is an `LLIL_IF` whose two targets resolve to
two-instruction blocks that each start with an `LLIL_SET_REG` of the same
destination register operand, each with exactly one outgoing edge to the same
successor block, and that successor is one instruction long and holds an
`LLIL_IF` with targets `E` and `F`, then `TryRewriteCSEL` returns `true` and the
instruction at `i` is afterwards an `LLIL_IF` with true target `E` and false
target `F`. -/
theorem TryRewriteCSEL_rewrites_idiom (llil : LowLevelILFunction) (i : Nat)
    (insn trueInsn falseInsn realInsn : LowLevelILInstruction)
    (trueBlock falseBlock realBlock : BasicBlock) (d E F : Nat)
    (hinsn : llil.GetInstruction i = some insn)
    (hif : insn.operation = LLIL_IF)
    (htb : llil.GetBasicBlockForInstruction insn.GetTrueTarget = some trueBlock)
    (hfb : llil.GetBasicBlockForInstruction insn.GetFalseTarget = some falseBlock)
    (htl : trueBlock.GetLength = 2) (hfl : falseBlock.GetLength = 2)
    (hti : llil.GetInstruction trueBlock.GetStart = some trueInsn)
    (hfi : llil.GetInstruction falseBlock.GetStart = some falseInsn)
    (hts : trueInsn.operation = LLIL_SET_REG) (hfs : falseInsn.operation = LLIL_SET_REG)
    (hreg : trueInsn.operand0 = falseInsn.operand0)
    (hte : trueBlock.GetOutgoingEdges = [⟨some d⟩])
    (hfe : falseBlock.GetOutgoingEdges = [⟨some d⟩])
    (hrb : llil.GetBlock d = some realBlock)
    (hrl : realBlock.GetLength = 1)
    (hri : llil.GetInstruction realBlock.GetStart = some realInsn)
    (hrif : realInsn.operation = LLIL_IF)
    (hE : realInsn.GetTrueTarget = E) (hF : realInsn.GetFalseTarget = F) :
    ∃ llil' newInsn, TryRewriteCSEL llil i = some (true, llil') ∧
      llil'.GetInstruction i = some newInsn ∧
      newInsn.operation = LLIL_IF ∧
      newInsn.GetTrueTarget = E ∧ newInsn.GetFalseTarget = F := by
  have m : Matched llil i insn realInsn :=
    ⟨hinsn, hif, ⟨trueBlock, falseBlock, trueInsn, falseInsn, d, realBlock, htb, hfb, htl, hfl,
      hti, hfi, hts, hfs, hreg, hte, hfe, hrb, hrl, hri⟩, hrif⟩
  refine ⟨rewritten llil i insn realInsn, _, TryRewriteCSEL_of_Matched m,
    GetInstruction_Replace_self _ (GetInstruction_lt hinsn), rfl, hE, hF⟩

/-- C1, on the sample scenario: `A = IF cond -> B, C` becomes
`A = IF cond -> E, F` with `E = 6` and `F = 7`. -/
theorem TryRewriteCSEL_rewrites_idiom_witness :
    ∃ llil' newInsn, TryRewriteCSEL sampleIR 0 = some (true, llil') ∧
      llil'.GetInstruction 0 = some newInsn ∧
      newInsn.operation = LLIL_IF ∧
      newInsn.GetTrueTarget = 6 ∧ newInsn.GetFalseTarget = 7 :=
  TryRewriteCSEL_rewrites_idiom sampleIR 0
    ⟨LLIL_IF, 0, 100, 1, 3, 0⟩ ⟨LLIL_SET_REG, 8, 0, 101, 0, 0⟩ ⟨LLIL_SET_REG, 8, 0, 102, 0, 0⟩
    ⟨LLIL_IF, 0, 103, 6, 7, 0⟩ ⟨1, 2, [⟨some 3⟩]⟩ ⟨3, 2, [⟨some 3⟩]⟩
    ⟨5, 1, [⟨some 4⟩, ⟨some 5⟩]⟩ 3 6 7
    (by decide) (by decide) (by decide) (by decide) (by decide) (by decide) (by decide)
    (by decide) (by decide) (by decide) (by decide) (by decide) (by decide) (by decide)
    (by decide) (by decide) (by decide) (by decide) (by decide)

/-- C2: when `TryRewriteCSEL` returns `true`, the instruction at `i` was an
`LLIL_IF` and is afterwards an `LLIL_IF` whose condition expression is the
non-SSA index of the original condition expression; the instruction at every
other index, the instruction count, the block list with every block's start,
length and outgoing edges, and the non-SSA translation are unchanged.  When the
original branch has size 0, an unused fourth operand of 0 and a condition that
is its own non-SSA form, the new instruction is the original one with only its
two targets replaced. -/
theorem TryRewriteCSEL_true_frame (llil llil' : LowLevelILFunction) (i : Nat)
    (h : TryRewriteCSEL llil i = some (true, llil')) :
    ∃ insn newInsn, llil.GetInstruction i = some insn ∧ insn.operation = LLIL_IF ∧
      llil'.GetInstruction i = some newInsn ∧ newInsn.operation = LLIL_IF ∧
      newInsn.GetConditionExpr = llil.GetNonSSAExprIndex insn.GetConditionExpr ∧
      (∀ j, j ≠ i → llil'.GetInstruction j = llil.GetInstruction j) ∧
      llil'.instructions.length = llil.instructions.length ∧
      llil'.GetBasicBlocks = llil.GetBasicBlocks ∧
      llil'.nonSSAExprIndex = llil.nonSSAExprIndex ∧
      (insn.size = 0 → insn.operand3 = 0 →
        llil.GetNonSSAExprIndex insn.GetConditionExpr = insn.GetConditionExpr →
        newInsn = { insn with operand1 := newInsn.GetTrueTarget,
                              operand2 := newInsn.GetFalseTarget }) := by
  rcases TryRewriteCSEL_result h with ⟨hb, _⟩ | ⟨_, insn, realInsn, m, rfl⟩
  · exact absurd hb (by decide)
  · refine ⟨insn, _, m.insn_eq, m.insn_if,
      GetInstruction_Replace_self _ (GetInstruction_lt m.insn_eq), rfl, rfl,
      fun j hj => GetInstruction_Replace_ne llil _ hj, ?_, rfl, rfl, ?_⟩
    · simp [rewritten, LowLevelILFunction.Replace]
    · intro hs h3 hc
      have hop := m.insn_if
      cases insn
      simp only [LowLevelILInstruction.GetConditionExpr] at hc hs h3 hop ⊢
      simp [LowLevelILFunction.If, hc, hs, h3, hop, LowLevelILInstruction.GetTrueTarget,
        LowLevelILInstruction.GetFalseTarget, LowLevelILInstruction.GetConditionExpr]

/-- C2, on the sample scenario: after the rewrite at index 0 only the two
targets of instruction 0 differ. -/
theorem TryRewriteCSEL_true_frame_witness :
    ∃ insn newInsn, sampleIR.GetInstruction 0 = some insn ∧ insn.operation = LLIL_IF ∧
      (sampleIR.Replace 0 ⟨LLIL_IF, 0, 100, 6, 7, 0⟩).GetInstruction 0 = some newInsn ∧
      newInsn.operation = LLIL_IF ∧
      newInsn.GetConditionExpr = sampleIR.GetNonSSAExprIndex insn.GetConditionExpr ∧
      (∀ j, j ≠ 0 → (sampleIR.Replace 0 ⟨LLIL_IF, 0, 100, 6, 7, 0⟩).GetInstruction j =
        sampleIR.GetInstruction j) ∧
      (sampleIR.Replace 0 ⟨LLIL_IF, 0, 100, 6, 7, 0⟩).instructions.length =
        sampleIR.instructions.length ∧
      (sampleIR.Replace 0 ⟨LLIL_IF, 0, 100, 6, 7, 0⟩).GetBasicBlocks = sampleIR.GetBasicBlocks ∧
      (sampleIR.Replace 0 ⟨LLIL_IF, 0, 100, 6, 7, 0⟩).nonSSAExprIndex =
        sampleIR.nonSSAExprIndex ∧
      (insn.size = 0 → insn.operand3 = 0 →
        sampleIR.GetNonSSAExprIndex insn.GetConditionExpr = insn.GetConditionExpr →
        newInsn = { insn with operand1 := newInsn.GetTrueTarget,
                              operand2 := newInsn.GetFalseTarget }) :=
  TryRewriteCSEL_true_frame sampleIR (sampleIR.Replace 0 ⟨LLIL_IF, 0, 100, 6, 7, 0⟩) 0 rfl

/-- C3: a call of `TryRewriteCSEL` that returns `false` leaves the IR exactly as
it was, so any sequence of calls on indices that all report `false` leaves the
IR (and the accumulated flag) unchanged, whatever the order. -/
theorem TryRewriteCSEL_false_no_effect (llil llil' : LowLevelILFunction) (i : Nat)
    (h : TryRewriteCSEL llil i = some (false, llil')) :
    llil' = llil ∧
    ∀ (indices : List Nat) (changed : Bool),
      (∀ j ∈ indices, ∃ l, TryRewriteCSEL llil j = some (false, l)) →
      sweepInstructions llil changed indices = some (changed, llil) := by
  refine ⟨?_, fun indices changed hall => sweepInstructions_all_false llil changed indices hall⟩
  rcases TryRewriteCSEL_result h with ⟨_, hl⟩ | ⟨hb, _⟩
  · exact hl
  · exact absurd hb (by decide)

/-- C3, on the sample scenario: the calls at indices 5, 1, 3, 1 (none of which
matches) leave the IR as it was. -/
theorem TryRewriteCSEL_false_no_effect_witness :
    sweepInstructions sampleIR false [5, 1, 3, 1] = some (false, sampleIR) :=
  (TryRewriteCSEL_false_no_effect sampleIR sampleIR 5 rfl).2 [5, 1, 3, 1] false
    (by
      intro j hj
      simp only [List.mem_cons, List.mem_singleton, List.not_mem_nil, or_false] at hj
      rcases hj with rfl | rfl | rfl | rfl <;> exact ⟨sampleIR, rfl⟩)

/-- C4: when the instruction at `i` is not an `LLIL_IF`, `TryRewriteCSEL` returns
`false` with the IR unchanged, and it does so whatever the block list of the
function is: no block and no edge is consulted. -/
theorem TryRewriteCSEL_not_if (llil : LowLevelILFunction) (i : Nat)
    (insn : LowLevelILInstruction)
    (hinsn : llil.GetInstruction i = some insn) (hop : insn.operation ≠ LLIL_IF) :
    TryRewriteCSEL llil i = some (false, llil) ∧
    ∀ blocks : List BasicBlock,
      TryRewriteCSEL { llil with blocks := blocks } i =
        some (false, { llil with blocks := blocks }) := by
  constructor
  · simp [TryRewriteCSEL, hinsn, hop]
  · intro blocks
    have h' : ({ llil with blocks := blocks } : LowLevelILFunction).GetInstruction i =
        some insn := hinsn
    simp [TryRewriteCSEL, h', hop]

/-- C4, on the sample scenario: index 1 holds an `LLIL_SET_REG`; the call
returns `false`, also when the function has no block at all. -/
theorem TryRewriteCSEL_not_if_witness :
    TryRewriteCSEL sampleIR 1 = some (false, sampleIR) ∧
    TryRewriteCSEL { sampleIR with blocks := [] } 1 =
      some (false, { sampleIR with blocks := [] }) :=
  ⟨(TryRewriteCSEL_not_if sampleIR 1 ⟨LLIL_SET_REG, 8, 0, 101, 0, 0⟩ (by decide)
      (by decide)).1,
   (TryRewriteCSEL_not_if sampleIR 1 ⟨LLIL_SET_REG, 8, 0, 101, 0, 0⟩ (by decide)
      (by decide)).2 []⟩

/-- C5: for an `LLIL_IF` at `i` whose true target resolves to a block, if that
block is not exactly two instructions long, or the block the false target
resolves to is not exactly two instructions long, `TryRewriteCSEL` returns
`false` and the IR is unchanged. -/
theorem TryRewriteCSEL_stub_length (llil : LowLevelILFunction) (i : Nat)
    (insn : LowLevelILInstruction) (trueBlock : BasicBlock)
    (hinsn : llil.GetInstruction i = some insn) (hif : insn.operation = LLIL_IF)
    (htb : llil.GetBasicBlockForInstruction insn.GetTrueTarget = some trueBlock)
    (hlen : trueBlock.GetLength ≠ 2 ∨
      ∃ falseBlock, llil.GetBasicBlockForInstruction insn.GetFalseTarget = some falseBlock ∧
        falseBlock.GetLength ≠ 2) :
    TryRewriteCSEL llil i = some (false, llil) := by
  by_cases htl : trueBlock.GetLength = 2
  · rcases hlen with h | ⟨falseBlock, hfb, hfl⟩
    · exact absurd htl h
    · simp [TryRewriteCSEL, hinsn, hif, htb, htl, hfb, hfl]
  · simp [TryRewriteCSEL, hinsn, hif, htb, htl]

/-- C5, on a function whose false stub is three instructions long. -/
theorem TryRewriteCSEL_stub_length_witness :
    TryRewriteCSEL longStubIR 0 = some (false, longStubIR) :=
  TryRewriteCSEL_stub_length longStubIR 0 ⟨LLIL_IF, 0, 100, 1, 3, 0⟩ ⟨1, 2, [⟨some 3⟩]⟩
    (by decide) (by decide) (by decide)
    (Or.inr ⟨⟨3, 3, [⟨some 3⟩]⟩, by decide, by decide⟩)

/-- C7: for an `LLIL_IF` at `i` whose two target blocks are two-instruction
blocks starting with `LLIL_SET_REG`s of the same register, if either block has
a number of outgoing edges other than one, or the single edges of the two
blocks have different targets, `TryRewriteCSEL` returns `false` and the IR is
unchanged. -/
theorem TryRewriteCSEL_stub_edges (llil : LowLevelILFunction) (i : Nat)
    (insn trueInsn falseInsn : LowLevelILInstruction) (trueBlock falseBlock : BasicBlock)
    (hinsn : llil.GetInstruction i = some insn) (hif : insn.operation = LLIL_IF)
    (htb : llil.GetBasicBlockForInstruction insn.GetTrueTarget = some trueBlock)
    (hfb : llil.GetBasicBlockForInstruction insn.GetFalseTarget = some falseBlock)
    (htl : trueBlock.GetLength = 2) (hfl : falseBlock.GetLength = 2)
    (hti : llil.GetInstruction trueBlock.GetStart = some trueInsn)
    (hfi : llil.GetInstruction falseBlock.GetStart = some falseInsn)
    (hts : trueInsn.operation = LLIL_SET_REG) (hfs : falseInsn.operation = LLIL_SET_REG)
    (hreg : trueInsn.operand0 = falseInsn.operand0)
    (hedges : trueBlock.GetOutgoingEdges.length ≠ 1 ∨ falseBlock.GetOutgoingEdges.length ≠ 1 ∨
      ∃ trueEdge falseEdge, trueBlock.GetOutgoingEdges = [trueEdge] ∧
        falseBlock.GetOutgoingEdges = [falseEdge] ∧ trueEdge.target ≠ falseEdge.target) :
    TryRewriteCSEL llil i = some (false, llil) := by
  simp only [TryRewriteCSEL, hinsn, hif, htb, hfb, htl, hfl, hti, hfi, hts, hfs, hreg]
  simp only [ne_eq, not_true_eq_false, or_self, ite_false]
  rcases hedges with h | h | ⟨te, fe, ht, hf, hne⟩
  · split
    · rename_i ht _
      rw [ht] at h
      exact absurd rfl h
    · rfl
  · split
    · rename_i _ hf
      rw [hf] at h
      exact absurd rfl h
    · rfl
  · rw [ht, hf]
    simp [hne]

/-- C7, on a function whose stubs leave for different blocks. -/
theorem TryRewriteCSEL_stub_edges_witness :
    TryRewriteCSEL divergingIR 0 = some (false, divergingIR) :=
  TryRewriteCSEL_stub_edges divergingIR 0 ⟨LLIL_IF, 0, 100, 1, 3, 0⟩
    ⟨LLIL_SET_REG, 8, 0, 101, 0, 0⟩ ⟨LLIL_SET_REG, 8, 0, 102, 0, 0⟩
    ⟨1, 2, [⟨some 3⟩]⟩ ⟨3, 2, [⟨some 4⟩]⟩
    (by decide) (by decide) (by decide) (by decide) (by decide) (by decide) (by decide)
    (by decide) (by decide) (by decide) (by decide)
    (Or.inr (Or.inr ⟨⟨some 3⟩, ⟨some 4⟩, by decide, by decide, by decide⟩))

/-- C8: for an `LLIL_IF` at `i` whose two target blocks satisfy the stub
conditions and each have the single edge to the same successor block, if that
successor is not exactly one instruction long or its first instruction is not
an `LLIL_IF`, `TryRewriteCSEL` returns `false` and the IR is unchanged. -/
theorem TryRewriteCSEL_successor_shape (llil : LowLevelILFunction) (i : Nat)
    (insn trueInsn falseInsn realInsn : LowLevelILInstruction)
    (trueBlock falseBlock realBlock : BasicBlock) (d : Nat)
    (hinsn : llil.GetInstruction i = some insn) (hif : insn.operation = LLIL_IF)
    (htb : llil.GetBasicBlockForInstruction insn.GetTrueTarget = some trueBlock)
    (hfb : llil.GetBasicBlockForInstruction insn.GetFalseTarget = some falseBlock)
    (htl : trueBlock.GetLength = 2) (hfl : falseBlock.GetLength = 2)
    (hti : llil.GetInstruction trueBlock.GetStart = some trueInsn)
    (hfi : llil.GetInstruction falseBlock.GetStart = some falseInsn)
    (hts : trueInsn.operation = LLIL_SET_REG) (hfs : falseInsn.operation = LLIL_SET_REG)
    (hreg : trueInsn.operand0 = falseInsn.operand0)
    (hte : trueBlock.GetOutgoingEdges = [⟨some d⟩])
    (hfe : falseBlock.GetOutgoingEdges = [⟨some d⟩])
    (hrb : llil.GetBlock d = some realBlock)
    (hri : llil.GetInstruction realBlock.GetStart = some realInsn)
    (hshape : realBlock.GetLength ≠ 1 ∨ realInsn.operation ≠ LLIL_IF) :
    TryRewriteCSEL llil i = some (false, llil) := by
  simp [TryRewriteCSEL, hinsn, hif, htb, hfb, htl, hfl, hti, hfi, hts, hfs, hreg, hte, hfe,
    hrb, hri, hshape]

/-- C8, on a function whose shared successor is two instructions long. -/
theorem TryRewriteCSEL_successor_shape_witness :
    TryRewriteCSEL longSuccessorIR 0 = some (false, longSuccessorIR) :=
  TryRewriteCSEL_successor_shape longSuccessorIR 0 ⟨LLIL_IF, 0, 100, 1, 3, 0⟩
    ⟨LLIL_SET_REG, 8, 0, 101, 0, 0⟩ ⟨LLIL_SET_REG, 8, 0, 102, 0, 0⟩ ⟨LLIL_NOP, 0, 0, 0, 0, 0⟩
    ⟨1, 2, [⟨some 3⟩]⟩ ⟨3, 2, [⟨some 3⟩]⟩ ⟨5, 2, [⟨some 4⟩, ⟨some 5⟩]⟩ 3
    (by decide) (by decide) (by decide) (by decide) (by decide) (by decide) (by decide)
    (by decide) (by decide) (by decide) (by decide) (by decide) (by decide) (by decide)
    (by decide) (Or.inl (by decide))

/-! ## The sweep: claims C9 and C10 -/

/-- C9: when the matcher returns at every swept index and no swept index heads
an instance of the idiom, the sweep of `Run` leaves the IR (instructions,
blocks, edges) exactly as it was with the changed flag `false`, and `Run` makes
no host call: neither `GenerateSSAForm` nor `Finalize` is invoked. -/
theorem Run_without_idiom (context : AnalysisContext) (llil : LowLevelILFunction)
    (hctx : context.GetLowLevelILFunction = some llil)
    (hret : ∀ i ∈ sweepIndices llil, (TryRewriteCSEL llil i).isSome = true)
    (hno : ∀ i ∈ sweepIndices llil, IsIdiomHead llil i = false) :
    sweepBlocks llil false llil.GetBasicBlocks = some (false, llil) ∧
    Run context = some { llil := some llil, calls := [] } := by
  have hsweep : sweepBlocks llil false llil.GetBasicBlocks = some (false, llil) := by
    rw [sweepBlocks_eq_sweepInstructions]
    refine sweepInstructions_all_false llil false _ (fun j hj => ?_)
    have hne : TryRewriteCSEL llil j ≠ none := by
      intro hnone
      have := hret j hj
      rw [hnone] at this
      exact Bool.noConfusion this
    obtain ⟨l, hl⟩ := TryRewriteCSEL_returns hne
    rw [hno j hj] at hl
    exact ⟨l, hl⟩
  refine ⟨hsweep, ?_⟩
  simp [Run, hctx, hsweep]

/-- C9, on a function whose stubs converge on a two-instruction block: the
sweep finds nothing and `Run` makes no host call. -/
theorem Run_without_idiom_witness :
    sweepBlocks longSuccessorIR false longSuccessorIR.GetBasicBlocks =
      some (false, longSuccessorIR) ∧
    Run ⟨4096, some longSuccessorIR⟩ = some { llil := some longSuccessorIR, calls := [] } :=
  Run_without_idiom ⟨4096, some longSuccessorIR⟩ longSuccessorIR rfl (by decide) (by decide)

/-- C10: when the blocks partition the instruction indices and the matcher
returns at every index of the pre-sweep IR, one sweep of `Run` visits every
index exactly once and, whatever was rewritten earlier in the sweep,
`TryRewriteCSEL` returns `true` at an index exactly when that index heads an
instance of the idiom in the pre-sweep IR; the instructions at all other indices
are left as they were.  With `N` the number of heads, the changed flag is set
exactly when `N ≥ 1`, and then `GenerateSSAForm` followed by `Finalize` is
invoked once, after the whole sweep. -/
theorem Run_rewrites_every_head (context : AnalysisContext) (llil : LowLevelILFunction)
    (hctx : context.GetLowLevelILFunction = some llil)
    (hpart : BlocksPartition llil)
    (hret : ∀ i, i < llil.instructions.length → (TryRewriteCSEL llil i).isSome = true) :
    ∃ final,
      (sweepIndices llil).Nodup ∧
      (∀ pre j post, sweepIndices llil = pre ++ j :: post →
        ∃ changed mid llil', sweepInstructions llil false pre = some (changed, mid) ∧
          TryRewriteCSEL mid j = some (IsIdiomHead llil j, llil')) ∧
      ((sweepIndices llil).filter (IsIdiomHead llil)).length = idiomCount llil ∧
      (∀ k, IsIdiomHead llil k = false → final.GetInstruction k = llil.GetInstruction k) ∧
      sweepBlocks llil false llil.GetBasicBlocks =
        some (decide (1 ≤ idiomCount llil), final) ∧
      Run context = some { llil := some final,
                           calls := if 1 ≤ idiomCount llil
                             then [HostCall.GenerateSSAForm, HostCall.Finalize] else [] } := by
  have hnd : (sweepIndices llil).Nodup := hpart.nodup_iff.mpr (List.nodup_range _)
  have hne : ∀ i ∈ sweepIndices llil, TryRewriteCSEL llil i ≠ none := by
    intro i hi hnone
    have hlt : i < llil.instructions.length := List.mem_range.mp (hpart.mem_iff.mp hi)
    have := hret i hlt
    rw [hnone] at this
    exact Bool.noConfusion this
  have hcount : ((sweepIndices llil).filter (IsIdiomHead llil)).length = idiomCount llil :=
    (hpart.filter _).length_eq
  obtain ⟨final, hfin, hR⟩ := sweepInstructions_Retargeted llil (sweepIndices llil) [] llil false
    (Retargeted.refl llil) (by simpa using hnd) hne
  have hany : (false || (sweepIndices llil).any (IsIdiomHead llil)) =
      decide (1 ≤ idiomCount llil) := by
    rw [← hcount, Bool.false_or]
    cases hf : (sweepIndices llil).any (IsIdiomHead llil) with
    | true =>
      obtain ⟨x, hx, hhx⟩ := List.any_eq_true.mp hf
      have : x ∈ (sweepIndices llil).filter (IsIdiomHead llil) := List.mem_filter.mpr ⟨hx, hhx⟩
      have := List.length_pos_of_mem this
      exact (decide_eq_true this).symm
    | false =>
      have hnil : (sweepIndices llil).filter (IsIdiomHead llil) = [] := by
        rw [List.filter_eq_nil_iff]
        intro x hx hhx
        have := List.any_eq_true.mpr ⟨x, hx, hhx⟩
        rw [hf] at this
        exact Bool.noConfusion this
      rw [hnil]
      rfl
  have hsweep : sweepBlocks llil false llil.GetBasicBlocks =
      some (decide (1 ≤ idiomCount llil), final) := by
    rw [sweepBlocks_eq_sweepInstructions, ← hany]
    exact hfin
  refine ⟨final, hnd, ?_, hcount, ?_, hsweep, ?_⟩
  · intro pre j post hsplit
    have hnd' : ([] ++ pre).Nodup := by
      rw [hsplit] at hnd
      simpa using (List.nodup_append.mp hnd).1
    obtain ⟨mid, hmid, hRm⟩ := sweepInstructions_Retargeted llil pre [] llil false
      (Retargeted.refl llil) hnd'
      (fun i hi => hne i (by rw [hsplit]; exact List.mem_append_left _ hi))
    have hj : j ∉ [] ++ pre := by
      rw [hsplit] at hnd
      intro hmem
      exact (List.nodup_append.mp hnd).2.2 (by simpa using hmem) (List.mem_cons_self _ _)
    obtain ⟨mid', hstep, _⟩ := hRm.step hj
      (hne j (by rw [hsplit]; exact List.mem_append_right _ (List.mem_cons_self _ _)))
    exact ⟨_, mid, mid', hmid, hstep⟩
  · intro k hk
    obtain ⟨_, _, hlen, hins⟩ := hR
    cases hg : llil.GetInstruction k with
    | none =>
      rw [GetInstruction_eq_none_iff] at hg ⊢
      rw [hlen]
      exact hg
    | some a =>
      obtain ⟨a', ha', _, hsame⟩ := hins k a hg
      rw [ha', hsame (fun hh => by rw [hk] at hh; exact Bool.noConfusion hh.2)]
  · by_cases hN : 1 ≤ idiomCount llil
    · simp [Run, hctx, hsweep, hN]
    · simp [Run, hctx, hsweep, hN]

/-- C10, on a function with two instances of the idiom: both heads are
rewritten in one sweep and the host regenerates SSA form once. -/
theorem Run_rewrites_every_head_witness :
    idiomCount twoIdiomIR = 2 ∧
    ∃ final,
      final.GetInstruction 0 = some ⟨LLIL_IF, 0, 100, 6, 12, 0⟩  ∧
      final.GetInstruction 6 = some ⟨LLIL_IF, 0, 104, 12, 13, 0⟩ ∧
      sweepBlocks twoIdiomIR false twoIdiomIR.GetBasicBlocks = some (true, final) ∧
      Run ⟨4096, some twoIdiomIR⟩ =
        some { llil := some final,
               calls := [HostCall.GenerateSSAForm, HostCall.Finalize] } := by
  obtain ⟨final, _, _, _, _, hsweep, hrun⟩ :=
    Run_rewrites_every_head ⟨4096, some twoIdiomIR⟩ twoIdiomIR rfl
      (by unfold BlocksPartition; decide) (by decide)
  have hN : idiomCount twoIdiomIR = 2 := by decide
  have hfinal : some (decide (1 ≤ idiomCount twoIdiomIR), final) =
      some (true, (twoIdiomIR.Replace 0 ⟨LLIL_IF, 0, 100, 6, 12, 0⟩).Replace 6
        ⟨LLIL_IF, 0, 104, 12, 13, 0⟩) := by
    rw [← hsweep]; rfl
  simp only [Option.some.injEq, Prod.mk.injEq] at hfinal
  refine ⟨hN, final, ?_, ?_, ?_, ?_⟩
  · rw [hfinal.2]; rfl
  · rw [hfinal.2]; rfl
  · rw [hsweep, hN]; rfl
  · rw [hrun, hN]; rfl

/-! ## Later claims: C11 to C18 -/

/-- C13: when the analysis context supplies no low-level IL, `Run` returns
after a single `LogWarn`; there is no IR, so no index is handed to
`TryRewriteCSEL` and nothing is mutated, and neither `GenerateSSAForm` nor
`Finalize` is invoked. -/
theorem Run_without_il (context : AnalysisContext)
    (hctx : context.GetLowLevelILFunction = none) :
    Run context = some { llil := none, calls := [HostCall.LogWarn context.functionStart] } := by
  simp [Run, hctx]

/-- C13, on a context for the function at address 4096 without IL. -/
theorem Run_without_il_witness :
    Run ⟨4096, none⟩ = some { llil := none, calls := [HostCall.LogWarn 4096] } :=
  Run_without_il ⟨4096, none⟩ rfl

/-- C18: in the chained function the result at `A` (index 0) depends on the
visiting order.  Visiting `A` before `D` rewrites `A` to the original targets
of `D` (6 and 8); visiting `D` before `A` rewrites `D` first and then `A` to
the targets of `G` (11 and 12).  The same holds for `Run` on the two block
orders: the final instructions at index 0 differ. -/
theorem Run_order_dependent :
    IsIdiomHead chainedIR 0 = true ∧ IsIdiomHead chainedIR 5 = true ∧
    chainedIR.GetInstruction 5 = some ⟨LLIL_IF, 0, 103, 6, 8, 0⟩ ∧
    chainedIR.GetInstruction 10 = some ⟨LLIL_IF, 0, 106, 11, 12, 0⟩ ∧
    (∃ l, sweepInstructions chainedIR false [0, 5] = some (true, l) ∧
      l.GetInstruction 0 = some ⟨LLIL_IF, 0, 100, 6, 8, 0⟩) ∧
    (∃ l, sweepInstructions chainedIR false [5, 0] = some (true, l) ∧
      l.GetInstruction 0 = some ⟨LLIL_IF, 0, 100, 11, 12, 0⟩) ∧
    (∃ l l', Run ⟨4096, some chainedIR⟩ =
        some { llil := some l, calls := [HostCall.GenerateSSAForm, HostCall.Finalize] } ∧
      Run ⟨4096, some chainedSuccessorFirstIR⟩ =
        some { llil := some l', calls := [HostCall.GenerateSSAForm, HostCall.Finalize] } ∧
      l.GetInstruction 0 = some ⟨LLIL_IF, 0, 100, 6, 8, 0⟩ ∧
      l'.GetInstruction 0 = some ⟨LLIL_IF, 0, 100, 11, 12, 0⟩ ∧
      l.GetInstruction 0 ≠ l'.GetInstruction 0) :=
  ⟨by decide, by decide, by decide, by decide,
    ⟨_, rfl, rfl⟩, ⟨_, rfl, rfl⟩, ⟨_, _, rfl, rfl, rfl, rfl, by decide⟩⟩

/-- C11, as stated, fails: on the chained function the first sweep rewrites `A`
(index 0) to the original targets of `D`, which are again two stubs that
converge on a single branch; a second sweep on the resulting IR matches at
index 0 again, sets the changed flag, rewrites the instruction and has SSA form
regenerated a second time. -/
theorem Run_second_sweep_rewrites :
    ∃ first second,
      Run ⟨4096, some chainedIR⟩ =
        some { llil := some first, calls := [HostCall.GenerateSSAForm, HostCall.Finalize] } ∧
      first.GetInstruction 0 = some ⟨LLIL_IF, 0, 100, 6, 8, 0⟩ ∧
      IsIdiomHead first 0 = true ∧
      sweepBlocks first false first.GetBasicBlocks = some (true, second) ∧
      Run ⟨4096, some first⟩ =
        some { llil := some second, calls := [HostCall.GenerateSSAForm, HostCall.Finalize] } ∧
      second.GetInstruction 0 = some ⟨LLIL_IF, 0, 100, 11, 12, 0⟩ :=
  ⟨_, _, rfl, rfl, by decide, rfl, rfl, rfl⟩

theorem GetBasicBlockForInstruction_mem {llil : LowLevelILFunction} {t : Nat} {b : BasicBlock}
    (h : llil.GetBasicBlockForInstruction t = some b) : b ∈ llil.blocks :=
  List.mem_of_find?_eq_some h

theorem GetBlock_mem {llil : LowLevelILFunction} {d : Nat} {b : BasicBlock}
    (h : llil.GetBlock d = some b) : b ∈ llil.blocks :=
  List.getElem?_mem h

/-- The boolean returned by `TryRewriteCSEL` (and whether the call faults) is
a function of the blocks, of the operation and targets of the instruction under
test, and of the operation and register operand of the first instruction of
each block; nothing else is read. -/
theorem verdict_reads (l1 l2 : LowLevelILFunction) (i1 i2 : Nat)
    (hb : l2.blocks = l1.blocks)
    (hi : SameBranch (l1.GetInstruction i1) (l2.GetInstruction i2))
    (hs : ∀ b ∈ l1.blocks,
      SameBlockStart (l1.GetInstruction b.GetStart) (l2.GetInstruction b.GetStart)) :
    (TryRewriteCSEL l2 i2).map Prod.fst = (TryRewriteCSEL l1 i1).map Prod.fst := by
  have hBB : ∀ t, l2.GetBasicBlockForInstruction t = l1.GetBasicBlockForInstruction t := by
    intro t; simp [LowLevelILFunction.GetBasicBlockForInstruction, hb]
  have hGB : ∀ d, l2.GetBlock d = l1.GetBlock d := by
    intro d; simp [LowLevelILFunction.GetBlock, hb]
  unfold TryRewriteCSEL
  simp only [hBB, hGB]
  cases h0 : l1.GetInstruction i1 with
  | none =>
    cases h0' : l2.GetInstruction i2 with
    | none => rfl
    | some a2 => rw [h0, h0'] at hi; exact absurd hi id
  | some insn =>
    cases h0' : l2.GetInstruction i2 with
    | none => rw [h0, h0'] at hi; exact absurd hi id
    | some insn2 =>
      rw [h0, h0'] at hi
      obtain ⟨hop, htg⟩ := hi
      dsimp only
      rw [hop]
      split
      · rfl
      · rename_i hif
        simp only [ne_eq, not_not] at hif
        obtain ⟨hT, hF⟩ := htg hif
        rw [hT, hF]
        cases h1 : l1.GetBasicBlockForInstruction insn.GetTrueTarget with
        | none => rfl
        | some tb =>
          dsimp only
          split
          · rfl
          · cases h2 : l1.GetBasicBlockForInstruction insn.GetFalseTarget with
            | none => rfl
            | some fb =>
              dsimp only
              split
              · rfl
              · have htb := hs tb (GetBasicBlockForInstruction_mem h1)
                have hfb := hs fb (GetBasicBlockForInstruction_mem h2)
                cases h3 : l1.GetInstruction tb.GetStart with
                | none =>
                  cases h3' : l2.GetInstruction tb.GetStart with
                  | none => rfl
                  | some x => rw [h3, h3'] at htb; exact absurd htb id
                | some tI =>
                  cases h3' : l2.GetInstruction tb.GetStart with
                  | none => rw [h3, h3'] at htb; exact absurd htb id
                  | some tI2 =>
                    rw [h3, h3'] at htb
                    cases h4 : l1.GetInstruction fb.GetStart with
                    | none =>
                      cases h4' : l2.GetInstruction fb.GetStart with
                      | none => rfl
                      | some x => rw [h4, h4'] at hfb; exact absurd hfb id
                    | some fI =>
                      cases h4' : l2.GetInstruction fb.GetStart with
                      | none => rw [h4, h4'] at hfb; exact absurd hfb id
                      | some fI2 =>
                        rw [h4, h4'] at hfb
                        dsimp only
                        rw [htb.1, hfb.1]
                        split
                        · rfl
                        · rename_i hset
                          simp only [ne_eq, not_or, not_not] at hset
                          rw [htb.2 hset.1, hfb.2 hset.2]
                          split
                          · rfl
                          · split
                            · split
                              · rfl
                              · split
                                · rfl
                                · split
                                  · rfl
                                  · rename_i rb hrb
                                    have hrs := hs rb (GetBlock_mem hrb)
                                    cases h5 : l1.GetInstruction rb.GetStart with
                                    | none =>
                                      cases h5' : l2.GetInstruction rb.GetStart with
                                      | none => rfl
                                      | some x => rw [h5, h5'] at hrs; exact absurd hrs id
                                    | some rI =>
                                      cases h5' : l2.GetInstruction rb.GetStart with
                                      | none => rw [h5, h5'] at hrs; exact absurd hrs id
                                      | some rI2 =>
                                        rw [h5, h5'] at hrs
                                        dsimp only
                                        rw [hrs.1]
                                        split <;> rfl
                            · rfl

theorem SameUpToValues.branch {o1 o2 : Option LowLevelILInstruction}
    (h : SameUpToValues o1 o2) : SameBranch o1 o2 := by
  cases o1 <;> cases o2 <;> simp only [SameUpToValues, SameBranch] at h ⊢
  exact ⟨h.1, h.2.2⟩

theorem SameUpToValues.toBlockStart {o1 o2 : Option LowLevelILInstruction}
    (h : SameUpToValues o1 o2) : SameBlockStart o1 o2 := by
  cases o1 <;> cases o2 <;> simp only [SameUpToValues, SameBlockStart] at h ⊢
  exact ⟨h.1, h.2.1⟩

/-- The shared successor of a match is where its second branch is read. -/
theorem Matched.sharedSuccessor {llil : LowLevelILFunction} {i : Nat}
    {insn realInsn : LowLevelILInstruction} (m : Matched llil i insn realInsn) :
    ∃ realBlock ∈ llil.blocks, sharedSuccessor llil i = some realBlock.GetStart ∧
      llil.GetInstruction realBlock.GetStart = some realInsn := by
  obtain ⟨hinsn, _, ⟨tb, fb, tI, fI, d, rb, htb, _, _, _, _, _, _, _, _, hte, _, hrb, _, hri⟩, _⟩ := m
  refine ⟨rb, GetBlock_mem hrb, ?_, hri⟩
  simp [ACC.sharedSuccessor, hinsn, htb, hte, hrb]

/-- The shared successor depends on the blocks and on the true target of the
branch only. -/
theorem sharedSuccessor_congr {l1 l2 : LowLevelILFunction} {i1 i2 : Nat}
    {a1 a2 : LowLevelILInstruction} (hb : l2.blocks = l1.blocks)
    (h1 : l1.GetInstruction i1 = some a1) (h2 : l2.GetInstruction i2 = some a2)
    (ht : a2.GetTrueTarget = a1.GetTrueTarget) :
    sharedSuccessor l2 i2 = sharedSuccessor l1 i1 := by
  simp [sharedSuccessor, h1, h2, ht, LowLevelILFunction.GetBasicBlockForInstruction,
    LowLevelILFunction.GetBlock, hb]

/-- C15, as stated, fails: `sampleIR` and `stubBranchIR` have the same blocks and
agree at every index except 2, the second instruction of the true stub of the
instance headed at index 0; at index 2 `TryRewriteCSEL` returns `false` on the
first and `true` on the second. -/
theorem TryRewriteCSEL_stub_second_instruction :
    IsIdiomHead sampleIR 0 = true ∧
    sampleIR.GetBasicBlockForInstruction 1 = some ⟨1, 2, [⟨some 3⟩]⟩ ∧
    stubBranchIR.blocks = sampleIR.blocks ∧
    stubBranchIR.instructions = sampleIR.instructions.set 2 ⟨LLIL_IF, 0, 100, 1, 3, 0⟩ ∧
    (TryRewriteCSEL sampleIR 2).map Prod.fst = some false ∧
    (TryRewriteCSEL stubBranchIR 2).map Prod.fst = some true :=
  ⟨by decide, by decide, rfl, rfl, by decide, by decide⟩

/-- C15, amended: for two IRs with the same blocks that agree at index `i` and
at the first instruction of every block up to the assigned expression of an
`LLIL_SET_REG` and the condition of an `LLIL_IF` (every other instruction, such
as the second instruction of a stub, may differ arbitrarily), `TryRewriteCSEL`
at `i` returns the same boolean on both (and faults on both or on neither) and,
when `true`, writes the same two branch targets at `i`. -/
theorem TryRewriteCSEL_ignores_values (l1 l2 : LowLevelILFunction) (i : Nat)
    (hb : l2.blocks = l1.blocks)
    (hi : SameUpToValues (l1.GetInstruction i) (l2.GetInstruction i))
    (hs : ∀ b ∈ l1.blocks,
      SameUpToValues (l1.GetInstruction b.GetStart) (l2.GetInstruction b.GetStart)) :
    (TryRewriteCSEL l2 i).map Prod.fst = (TryRewriteCSEL l1 i).map Prod.fst ∧
    ∀ l1' l2', TryRewriteCSEL l1 i = some (true, l1') → TryRewriteCSEL l2 i = some (true, l2') →
      ∃ n1 n2, l1'.GetInstruction i = some n1 ∧ l2'.GetInstruction i = some n2 ∧
        n1.operation = LLIL_IF ∧ n2.operation = LLIL_IF ∧
        n2.GetTrueTarget = n1.GetTrueTarget ∧ n2.GetFalseTarget = n1.GetFalseTarget := by
  refine ⟨verdict_reads l1 l2 i i hb hi.branch (fun b hb' => (hs b hb').toBlockStart), ?_⟩
  intro l1' l2' h1 h2
  rcases TryRewriteCSEL_result h1 with ⟨hf, _⟩ | ⟨_, insn1, rI1, m1, rfl⟩
  · exact absurd hf (by decide)
  rcases TryRewriteCSEL_result h2 with ⟨hf, _⟩ | ⟨_, insn2, rI2, m2, rfl⟩
  · exact absurd hf (by decide)
  refine ⟨_, _, GetInstruction_Replace_self _ (GetInstruction_lt m1.insn_eq),
    GetInstruction_Replace_self _ (GetInstruction_lt m2.insn_eq), rfl, rfl, ?_⟩
  have hi' := hi
  rw [m1.insn_eq, m2.insn_eq] at hi'
  obtain ⟨_, _, htg⟩ := hi'
  obtain ⟨rb1, hrb1, hs1, hr1⟩ := m1.sharedSuccessor
  obtain ⟨rb2, _, hs2, hr2⟩ := m2.sharedSuccessor
  rw [sharedSuccessor_congr hb m1.insn_eq m2.insn_eq (htg m1.insn_if).1, hs1] at hs2
  have hstart : rb2.GetStart = rb1.GetStart := (Option.some.inj hs2).symm
  rw [hstart] at hr2
  have hrel := hs rb1 hrb1
  rw [hr1, hr2] at hrel
  exact hrel.2.2 m1.real_if

/-- C15, amended, on the sample scenario and its variant with the assigned
values swapped, other second stub instructions and another tested condition:
both calls return `true` and both write the targets 6 and 7. -/
theorem TryRewriteCSEL_ignores_values_witness :
    (TryRewriteCSEL swappedIR 0).map Prod.fst = (TryRewriteCSEL sampleIR 0).map Prod.fst ∧
    ∃ n1 n2, (sampleIR.Replace 0 ⟨LLIL_IF, 0, 100, 6, 7, 0⟩).GetInstruction 0 = some n1 ∧
      (swappedIR.Replace 0 ⟨LLIL_IF, 0, 100, 6, 7, 0⟩).GetInstruction 0 = some n2 ∧
      n1.operation = LLIL_IF ∧ n2.operation = LLIL_IF ∧
      n2.GetTrueTarget = n1.GetTrueTarget ∧ n2.GetFalseTarget = n1.GetFalseTarget :=
  have h := TryRewriteCSEL_ignores_values sampleIR swappedIR 0 rfl
    (by simp [SameUpToValues, sampleIR, swappedIR, LowLevelILFunction.GetInstruction,
      LowLevelILInstruction.GetTrueTarget, LowLevelILInstruction.GetFalseTarget])
    (by
      intro b hb
      simp only [sampleIR, List.mem_cons, List.mem_singleton, List.not_mem_nil, or_false] at hb
      rcases hb with rfl | rfl | rfl | rfl | rfl | rfl <;>
        simp [SameUpToValues, sampleIR, swappedIR, LowLevelILFunction.GetInstruction,
          BasicBlock.GetStart, LowLevelILInstruction.GetTrueTarget,
          LowLevelILInstruction.GetFalseTarget])
  ⟨h.1, h.2 _ _ rfl rfl⟩

/-- C12, as stated, fails: in `unresolvedTargetIR` the true target of the
`LLIL_IF` at index 0 lies in no basic block, and in `missingEdgeTargetIR` the
single edge of each stub has no target; in both cases `TryRewriteCSEL` faults
(it dereferences the null reference) instead of returning `false`. -/
theorem TryRewriteCSEL_faults_on_unresolved :
    unresolvedTargetIR.GetInstruction 0 = some ⟨LLIL_IF, 0, 100, 20, 3, 0⟩ ∧
    unresolvedTargetIR.GetBasicBlockForInstruction 20 = none ∧
    TryRewriteCSEL unresolvedTargetIR 0 = none ∧
    missingEdgeTargetIR.GetBasicBlockForInstruction 1 = some ⟨1, 2, [⟨none⟩]⟩ ∧
    missingEdgeTargetIR.GetBasicBlockForInstruction 3 = some ⟨3, 2, [⟨none⟩]⟩ ∧
    TryRewriteCSEL missingEdgeTargetIR 0 = none :=
  ⟨by decide, by decide, rfl, by decide, by decide, rfl⟩

/-- C12, amended: the matcher makes no check for unresolved blocks or edges.
For an `LLIL_IF` at `i`: when the true target lies in no block the call faults;
when the true block is two instructions long and the false target lies in no
block the call faults; when both stubs pass the stub tests and the single edge
of each has no target, or names no block of the function, the call faults.
The call returns `false` with the IR unchanged only where an earlier test
decides: the true block is not two instructions long (the false block is then
not consulted), or exactly one of the two single edges has no target (the two
targets then differ). -/
theorem TryRewriteCSEL_unresolved (llil : LowLevelILFunction) (i : Nat)
    (insn : LowLevelILInstruction)
    (hinsn : llil.GetInstruction i = some insn) (hif : insn.operation = LLIL_IF) :
    (llil.GetBasicBlockForInstruction insn.GetTrueTarget = none →
      TryRewriteCSEL llil i = none) ∧
    (∀ trueBlock, llil.GetBasicBlockForInstruction insn.GetTrueTarget = some trueBlock →
      trueBlock.GetLength = 2 →
      llil.GetBasicBlockForInstruction insn.GetFalseTarget = none →
      TryRewriteCSEL llil i = none) ∧
    (∀ trueBlock, llil.GetBasicBlockForInstruction insn.GetTrueTarget = some trueBlock →
      trueBlock.GetLength ≠ 2 →
      llil.GetBasicBlockForInstruction insn.GetFalseTarget = none →
      TryRewriteCSEL llil i = some (false, llil)) ∧
    (∀ trueBlock falseBlock trueInsn falseInsn trueEdge falseEdge,
      llil.GetBasicBlockForInstruction insn.GetTrueTarget = some trueBlock →
      llil.GetBasicBlockForInstruction insn.GetFalseTarget = some falseBlock →
      trueBlock.GetLength = 2 → falseBlock.GetLength = 2 →
      llil.GetInstruction trueBlock.GetStart = some trueInsn →
      llil.GetInstruction falseBlock.GetStart = some falseInsn →
      trueInsn.operation = LLIL_SET_REG → falseInsn.operation = LLIL_SET_REG →
      trueInsn.operand0 = falseInsn.operand0 →
      trueBlock.GetOutgoingEdges = [trueEdge] → falseBlock.GetOutgoingEdges = [falseEdge] →
      ((trueEdge.target = none ∧ falseEdge.target = none →
          TryRewriteCSEL llil i = none) ∧
       (∀ d, trueEdge.target = some d → falseEdge.target = some d → llil.GetBlock d = none →
          TryRewriteCSEL llil i = none) ∧
       ((trueEdge.target = none ∧ falseEdge.target ≠ none) ∨
        (trueEdge.target ≠ none ∧ falseEdge.target = none) →
          TryRewriteCSEL llil i = some (false, llil)))) := by
  refine ⟨?_, ?_, ?_, ?_⟩
  · intro htb
    simp [TryRewriteCSEL, hinsn, hif, htb]
  · intro tb htb htl hfb
    simp [TryRewriteCSEL, hinsn, hif, htb, htl, hfb]
  · intro tb htb htl hfb
    simp [TryRewriteCSEL, hinsn, hif, htb, htl, hfb]
  · intro tb fb tI fI te fe htb hfb htl hfl hti hfi hts hfs hreg hte hfe
    refine ⟨?_, ?_, ?_⟩
    · rintro ⟨ht, hf⟩
      simp [TryRewriteCSEL, hinsn, hif, htb, hfb, htl, hfl, hti, hfi, hts, hfs, hreg, hte, hfe,
        ht, hf]
    · intro d ht hf hd
      simp [TryRewriteCSEL, hinsn, hif, htb, hfb, htl, hfl, hti, hfi, hts, hfs, hreg, hte, hfe,
        ht, hf, hd]
    · intro h
      have hne : te.target ≠ fe.target := by
        rcases h with ⟨ht, hf⟩ | ⟨ht, hf⟩
        · rw [ht]; exact fun h' => hf h'.symm
        · rw [hf]; exact ht
      simp [TryRewriteCSEL, hinsn, hif, htb, hfb, htl, hfl, hti, hfi, hts, hfs, hreg, hte, hfe,
        hne]

/-- C12, amended, on the two functions above: an unresolved true target and a
pair of edges without target both make the call fault. -/
theorem TryRewriteCSEL_unresolved_witness :
    TryRewriteCSEL unresolvedTargetIR 0 = none ∧ TryRewriteCSEL missingEdgeTargetIR 0 = none :=
  ⟨(TryRewriteCSEL_unresolved unresolvedTargetIR 0 ⟨LLIL_IF, 0, 100, 20, 3, 0⟩
      (by decide) (by decide)).1 (by decide),
   ((TryRewriteCSEL_unresolved missingEdgeTargetIR 0 ⟨LLIL_IF, 0, 100, 1, 3, 0⟩
      (by decide) (by decide)).2.2.2 ⟨1, 2, [⟨none⟩]⟩ ⟨3, 2, [⟨none⟩]⟩
      ⟨LLIL_SET_REG, 8, 0, 101, 0, 0⟩ ⟨LLIL_SET_REG, 8, 0, 102, 0, 0⟩ ⟨none⟩ ⟨none⟩
      (by decide) (by decide) (by decide) (by decide) (by decide) (by decide) (by decide)
      (by decide) (by decide) (by decide) (by decide)).1 ⟨rfl, rfl⟩⟩

/-- C14: the gap of the matcher is real.  In `gapIR` both stubs assign
register 0, the condition of the shared successor's `LLIL_IF` reads register 5
only and does not mention register 0, and `TryRewriteCSEL` at index 0 still
returns `true` and rewrites the instruction to the successor's targets 6
and 7. -/
theorem TryRewriteCSEL_unrelated_register :
    gapIR.GetInstruction 1 = some ⟨LLIL_SET_REG, 8, 0, 3, 0, 0⟩ ∧
    gapIR.GetInstruction 3 = some ⟨LLIL_SET_REG, 8, 0, 4, 0, 0⟩ ∧
    sharedSuccessor gapIR 0 = some 5 ∧
    gapIR.GetInstruction 5 = some ⟨LLIL_IF, 0, 7, 6, 7, 0⟩ ∧
    exprRegisters gapIR.exprs 8 7 = [5] ∧
    0 ∉ exprRegisters gapIR.exprs 8 7 ∧
    TryRewriteCSEL gapIR 0 = some (true, gapIR.Replace 0 ⟨LLIL_IF, 0, 2, 6, 7, 0⟩) :=
  ⟨by decide, by decide, by decide, by decide, by decide, by decide, rfl⟩

/-- A property of the IR kept by every returning call of `TryRewriteCSEL` is
kept by a sweep over any list of indices. -/
theorem sweepInstructions_invariant (P : LowLevelILFunction → Prop)
    (hstep : ∀ l i b l', P l → TryRewriteCSEL l i = some (b, l') → P l') :
    ∀ (indices : List Nat) (l : LowLevelILFunction) (c c' : Bool) (l' : LowLevelILFunction),
      P l → sweepInstructions l c indices = some (c', l') → P l' := by
  intro indices
  induction indices with
  | nil =>
    intro l c c' l' hP h
    simp only [sweepInstructions, Option.some.injEq, Prod.mk.injEq] at h
    rw [← h.2]
    exact hP
  | cons i rest ih =>
    intro l c c' l' hP h
    simp only [sweepInstructions] at h
    cases hr : TryRewriteCSEL l i with
    | none => rw [hr] at h; exact absurd h (by simp)
    | some p =>
      obtain ⟨b, m⟩ := p
      rw [hr] at h
      exact ih m _ c' l' (hstep l i b m hP hr) h

/-- What a returning `Run` on an available IR has done: one sweep over the
swept indices, then the two host calls exactly when the flag is set. -/
theorem Run_some {context : AnalysisContext} {llil : LowLevelILFunction} {result : RunResult}
    (hctx : context.GetLowLevelILFunction = some llil) (h : Run context = some result) :
    ∃ changed final, sweepInstructions llil false (sweepIndices llil) = some (changed, final) ∧
      result.llil = some final ∧
      result.calls = if changed then [HostCall.GenerateSSAForm, HostCall.Finalize] else [] := by
  simp only [Run, hctx, sweepBlocks_eq_sweepInstructions] at h
  cases hs : sweepInstructions llil false
      (llil.GetBasicBlocks.flatMap fun b => List.range' b.GetStart (b.GetEnd - b.GetStart)) with
  | none => rw [hs] at h; exact absurd h (by simp)
  | some p =>
    obtain ⟨changed, final⟩ := p
    rw [hs] at h
    refine ⟨changed, final, hs, ?_⟩
    cases changed <;> simp at h <;> subst h <;> exact ⟨rfl, rfl⟩

/-- With partitioning blocks and a matcher that returns at every index of the
IR it is given, `Run` returns. -/
theorem Run_returns {context : AnalysisContext} {llil : LowLevelILFunction}
    (hctx : context.GetLowLevelILFunction = some llil)
    (hpart : BlocksPartition llil)
    (hret : ∀ i, i < llil.instructions.length → (TryRewriteCSEL llil i).isSome = true) :
    ∃ result, Run context = some result := by
  have hnd : (sweepIndices llil).Nodup := hpart.nodup_iff.mpr (List.nodup_range _)
  have hne : ∀ i ∈ sweepIndices llil, TryRewriteCSEL llil i ≠ none := by
    intro i hi hnone
    have := hret i (List.mem_range.mp (hpart.mem_iff.mp hi))
    rw [hnone] at this
    exact Bool.noConfusion this
  obtain ⟨final, hfin, _⟩ := sweepInstructions_Retargeted llil (sweepIndices llil) [] llil false
    (Retargeted.refl llil) (by simpa using hnd) hne
  have hs : sweepBlocks llil false llil.GetBasicBlocks =
      some (false || (sweepIndices llil).any (IsIdiomHead llil), final) := by
    rw [sweepBlocks_eq_sweepInstructions]; exact hfin
  simp only [Run, hctx, hs]
  split <;> exact ⟨_, rfl⟩

theorem GetInstruction_mem {llil : LowLevelILFunction} {k : Nat} {a : LowLevelILInstruction}
    (h : llil.GetInstruction k = some a) : a ∈ llil.instructions :=
  List.getElem?_mem h

/-- A returning call keeps branch-target well-formedness: a rewritten branch
receives the targets of another `LLIL_IF` of the same IR. -/
theorem BranchTargetsStartBlocks.after_call {l l' : LowLevelILFunction} {i : Nat} {b : Bool}
    (hwf : BranchTargetsStartBlocks l) (h : TryRewriteCSEL l i = some (b, l')) :
    BranchTargetsStartBlocks l' := by
  rcases TryRewriteCSEL_result h with ⟨_, rfl⟩ | ⟨_, insn, rI, m, rfl⟩
  · exact hwf
  · obtain ⟨rb, _, _, hri⟩ := m.sharedSuccessor
    intro a ha hop
    have hmem : a ∈ l.instructions ∨ a = l.If (l.GetNonSSAExprIndex insn.GetConditionExpr)
        (GetLabelForIndex rI.GetTrueTarget) (GetLabelForIndex rI.GetFalseTarget) :=
      List.mem_or_eq_of_mem_set ha
    rcases hmem with hold | rfl
    · exact hwf a hold hop
    · exact hwf rI (GetInstruction_mem hri) m.real_if

/-- C16: when the true and false targets of every `LLIL_IF` are start indices of
basic blocks, every returning `Run` hands back an IR with the same blocks in
which this still holds; and `Run` does return when the blocks partition the
indices and the matcher returns at every index. -/
theorem Run_preserves_branch_targets (context : AnalysisContext) (llil : LowLevelILFunction)
    (hctx : context.GetLowLevelILFunction = some llil)
    (hwf : BranchTargetsStartBlocks llil) :
    (∀ result, Run context = some result →
      ∃ final, result.llil = some final ∧ final.blocks = llil.blocks ∧
        BranchTargetsStartBlocks final) ∧
    (BlocksPartition llil →
      (∀ i, i < llil.instructions.length → (TryRewriteCSEL llil i).isSome = true) →
      ∃ result, Run context = some result) := by
  refine ⟨fun result hrun => ?_, fun hpart hret => Run_returns hctx hpart hret⟩
  obtain ⟨changed, final, hsweep, hfinal, _⟩ := Run_some hctx hrun
  have hinv := sweepInstructions_invariant
    (fun l => l.blocks = llil.blocks ∧ BranchTargetsStartBlocks l)
    (fun l i b l' hP h => by
      refine ⟨?_, hP.2.after_call h⟩
      rcases TryRewriteCSEL_result h with ⟨_, rfl⟩ | ⟨_, insn, rI, m, rfl⟩
      · exact hP.1
      · exact hP.1)
    (sweepIndices llil) llil false changed final ⟨rfl, hwf⟩ hsweep
  exact ⟨final, hfinal, hinv.1, hinv.2⟩

/-- C16, on the function with two instances of the idiom: after `Run` the
targets of every branch are still block starts. -/
theorem Run_preserves_branch_targets_witness :
    ∃ result final, Run ⟨4096, some twoIdiomIR⟩ = some result ∧ result.llil = some final ∧
      final.blocks = twoIdiomIR.blocks ∧ BranchTargetsStartBlocks final := by
  have h := Run_preserves_branch_targets ⟨4096, some twoIdiomIR⟩ twoIdiomIR rfl
    (by unfold BranchTargetsStartBlocks; decide)
  obtain ⟨result, hres⟩ := h.2 (by unfold BlocksPartition; decide) (by decide)
  obtain ⟨final, hf⟩ := h.1 result hres
  exact ⟨result, final, hres, hf⟩

/-- A returning call leaves every other index as it was. -/
theorem TryRewriteCSEL_other_index {l l' : LowLevelILFunction} {i k : Nat} {b : Bool}
    (h : TryRewriteCSEL l i = some (b, l')) (hk : k ≠ i) :
    l'.GetInstruction k = l.GetInstruction k := by
  rcases TryRewriteCSEL_result h with ⟨_, rfl⟩ | ⟨_, insn, rI, m, rfl⟩
  · rfl
  · exact GetInstruction_Replace_ne l _ hk

/-- Under `Retargeted` the first instruction of a block looks the same to the
matcher as in the starting IR. -/
theorem Retargeted.sameBlockStart {start mid : LowLevelILFunction} {visited : List Nat}
    (h : Retargeted start mid visited) (k : Nat) :
    SameBlockStart (start.GetInstruction k) (mid.GetInstruction k) := by
  obtain ⟨_, _, hlen, hins⟩ := h
  cases hk : start.GetInstruction k with
  | none =>
    have : mid.GetInstruction k = none := by
      rw [GetInstruction_eq_none_iff] at hk ⊢
      rw [hlen]; exact hk
    rw [this]
    trivial
  | some a =>
    obtain ⟨a', ha', hop, hsame⟩ := hins k a hk
    rw [ha']
    refine ⟨hop, fun hs => ?_⟩
    have : a' = a := by
      apply hsame
      rintro ⟨_, hh⟩
      have := IsIdiomHead_operation hh hk
      rw [hs] at this
      cases this
    rw [this]

/-- Under `Retargeted` an index that is not a visited head holds the
instruction of the starting IR. -/
theorem Retargeted.unchanged {start mid : LowLevelILFunction} {visited : List Nat}
    (h : Retargeted start mid visited) {k : Nat}
    (hk : ¬ (k ∈ visited ∧ IsIdiomHead start k = true)) :
    mid.GetInstruction k = start.GetInstruction k := by
  obtain ⟨_, _, hlen, hins⟩ := h
  cases hs : start.GetInstruction k with
  | none =>
    rw [GetInstruction_eq_none_iff] at hs ⊢
    rw [hlen]; exact hs
  | some a =>
    obtain ⟨a', ha', _, hsame⟩ := hins k a hs
    rw [ha', hsame hk]

theorem Settled.start_state (llil : LowLevelILFunction) : Settled llil llil [] :=
  ⟨Retargeted.refl llil, fun _ hk => absurd hk (List.not_mem_nil _)⟩

/-- One more call of the sweep in a function without chained instances: the
verdict is the idiom test on the starting IR, and a rewritten head receives
the targets its shared successor has in the starting IR. -/
theorem Settled.next {start mid : LowLevelILFunction} {visited : List Nat} {j : Nat}
    (h : Settled start mid visited) (hj : j ∉ visited)
    (hret : TryRewriteCSEL start j ≠ none)
    (hun : IsIdiomHead start j = true →
      ∀ s ∈ sharedSuccessor start j, IsIdiomHead start s = false) :
    ∃ mid', TryRewriteCSEL mid j = some (IsIdiomHead start j, mid') ∧
      Settled start mid' (visited ++ [j]) := by
  obtain ⟨hR, hheads⟩ := h
  obtain ⟨mid', hstep, hR'⟩ := hR.step hj hret
  refine ⟨mid', hstep, hR', fun k hk hhead => ?_⟩
  rcases List.mem_append.mp hk with hkv | hkj
  · obtain ⟨s, rI, a', hs, hrI, hrif, ha', hop, hT, hF⟩ := hheads k hkv hhead
    have hne : k ≠ j := fun hkj => hj (hkj ▸ hkv)
    exact ⟨s, rI, a', hs, hrI, hrif, by rw [TryRewriteCSEL_other_index hstep hne]; exact ha',
      hop, hT, hF⟩
  · have hkj' : k = j := List.mem_singleton.mp hkj
    subst hkj'
    rw [hhead] at hstep
    rcases TryRewriteCSEL_result hstep with ⟨hf, _⟩ | ⟨_, insn, rI, m, rfl⟩
    · exact absurd hf (by decide)
    obtain ⟨rb, _, hss, hri⟩ := m.sharedSuccessor
    have hsame : mid.GetInstruction k = start.GetInstruction k :=
      hR.unchanged (fun hh => hj hh.1)
    have hstartk : start.GetInstruction k = some insn := by rw [← hsame]; exact m.insn_eq
    have hss' : sharedSuccessor start k = some rb.GetStart := by
      rw [← sharedSuccessor_congr hR.1 hstartk m.insn_eq rfl]
      exact hss
    have hnot : IsIdiomHead start rb.GetStart = false := hun hhead _ hss'
    have hrI : start.GetInstruction rb.GetStart = some rI := by
      rw [← hR.unchanged (fun hh => by rw [hnot] at hh; exact Bool.noConfusion hh.2)]
      exact hri
    exact ⟨rb.GetStart, rI, _, hss', hrI, m.real_if,
      GetInstruction_Replace_self _ (GetInstruction_lt m.insn_eq), rfl, rfl, rfl⟩

/-- A sweep, in a function without chained instances, over indices not visited
before and none repeated. -/
theorem sweepInstructions_Settled (start : LowLevelILFunction) (rest : List Nat) :
    ∀ (visited : List Nat) (mid : LowLevelILFunction) (changed : Bool),
      Settled start mid visited → (visited ++ rest).Nodup →
      (∀ i ∈ rest, TryRewriteCSEL start i ≠ none) →
      (∀ i ∈ rest, IsIdiomHead start i = true →
        ∀ s ∈ sharedSuccessor start i, IsIdiomHead start s = false) →
      ∃ changed' final, sweepInstructions mid changed rest = some (changed', final) ∧
        Settled start final (visited ++ rest) := by
  induction rest with
  | nil =>
    intro visited mid changed h _ _ _
    exact ⟨changed, mid, rfl, by simpa using h⟩
  | cons j rest ih =>
    intro visited mid changed h hnd hret hun
    have hj : j ∉ visited := fun hmem =>
      (List.nodup_append.mp hnd).2.2 hmem (List.mem_cons_self _ _)
    obtain ⟨mid', hstep, hS⟩ := h.next hj (hret j (List.mem_cons_self _ _))
      (hun j (List.mem_cons_self _ _))
    have hnd' : ((visited ++ [j]) ++ rest).Nodup := by simpa using hnd
    obtain ⟨c', final, hfin, hSf⟩ := ih (visited ++ [j]) mid' (changed || IsIdiomHead start j)
      hS hnd' (fun i hi => hret i (List.mem_cons_of_mem _ hi))
      (fun i hi => hun i (List.mem_cons_of_mem _ hi))
    refine ⟨c', final, ?_, by simpa using hSf⟩
    simp only [sweepInstructions, hstep, hfin]

/-- C11, amended: in a function without chained instances (the shared successor
of no head is itself a head), whose blocks partition the indices and on which
the matcher returns at every index, `Run` returns an IR on which a second sweep
finds no match at any swept index: every call returns `false`, the changed flag
stays `false`, the IR is unchanged and a second `Run` makes no host call. -/
theorem Run_idempotent_unchained (context : AnalysisContext) (llil : LowLevelILFunction)
    (hctx : context.GetLowLevelILFunction = some llil)
    (hpart : BlocksPartition llil)
    (hret : ∀ i, i < llil.instructions.length → (TryRewriteCSEL llil i).isSome = true)
    (hun : HeadsUnchained llil) :
    ∃ result final, Run context = some result ∧ result.llil = some final ∧
      (∀ i ∈ sweepIndices final, TryRewriteCSEL final i = some (false, final)) ∧
      sweepBlocks final false final.GetBasicBlocks = some (false, final) ∧
      Run ⟨context.functionStart, some final⟩ = some { llil := some final, calls := [] } := by
  have hnd : (sweepIndices llil).Nodup := hpart.nodup_iff.mpr (List.nodup_range _)
  have hne' : ∀ i, i < llil.instructions.length → TryRewriteCSEL llil i ≠ none := by
    intro i hi hnone
    have := hret i hi
    rw [hnone] at this
    exact Bool.noConfusion this
  have hne : ∀ i ∈ sweepIndices llil, TryRewriteCSEL llil i ≠ none :=
    fun i hi => hne' i (List.mem_range.mp (hpart.mem_iff.mp hi))
  obtain ⟨result, hrun⟩ := Run_returns hctx hpart hret
  obtain ⟨changed, final, hsweep, hfinal, _⟩ := Run_some hctx hrun
  obtain ⟨c', final', hsweep', hS⟩ := sweepInstructions_Settled llil (sweepIndices llil) [] llil
    false (Settled.start_state llil) (by simpa using hnd) hne hun
  rw [hsweep] at hsweep'
  simp only [Option.some.injEq, Prod.mk.injEq] at hsweep'
  obtain ⟨-, rfl⟩ := hsweep'
  simp only [List.nil_append] at hS
  obtain ⟨hR, hheads⟩ := hS
  have hidx : sweepIndices final = sweepIndices llil := by
    simp only [sweepIndices, LowLevelILFunction.GetBasicBlocks, hR.1]
  have hfalse : ∀ i ∈ sweepIndices llil, TryRewriteCSEL final i = some (false, final) := by
    intro i hi
    have hverdict : (TryRewriteCSEL final i).map Prod.fst = some false := by
      cases hhead : IsIdiomHead llil i with
      | false =>
        have hsame : final.GetInstruction i = llil.GetInstruction i :=
          hR.unchanged (fun hh => by rw [hhead] at hh; exact Bool.noConfusion hh.2)
        have hbranch : SameBranch (llil.GetInstruction i) (final.GetInstruction i) := by
          rw [hsame]
          cases llil.GetInstruction i with
          | none => trivial
          | some a => exact ⟨rfl, fun _ => ⟨rfl, rfl⟩⟩
        rw [verdict_reads llil final i i hR.1 hbranch (fun b _ => hR.sameBlockStart _)]
        obtain ⟨l, hl⟩ := TryRewriteCSEL_returns (hne i hi)
        rw [hl, hhead]
        rfl
      | true =>
        obtain ⟨s, rI, a', hs, hrI, hrif, ha', hop, hT, hF⟩ := hheads i hi hhead
        have hbranch : SameBranch (llil.GetInstruction s) (final.GetInstruction i) := by
          rw [hrI, ha']
          exact ⟨by rw [hop, hrif], fun _ => ⟨hT, hF⟩⟩
        rw [verdict_reads llil final s i hR.1 hbranch (fun b _ => hR.sameBlockStart _)]
        obtain ⟨l, hl⟩ := TryRewriteCSEL_returns (hne' s (GetInstruction_lt hrI))
        rw [hl, hun i hi hhead s hs]
        rfl
    cases hcall : TryRewriteCSEL final i with
    | none => rw [hcall] at hverdict; exact absurd hverdict (by simp)
    | some p =>
      obtain ⟨b, l⟩ := p
      rw [hcall] at hverdict
      simp only [Option.map_some', Option.some.injEq] at hverdict
      subst hverdict
      rcases TryRewriteCSEL_result hcall with ⟨_, rfl⟩ | ⟨hb, _⟩
      · rfl
      · exact absurd hb (by decide)
  have hsecond : sweepBlocks final false final.GetBasicBlocks = some (false, final) := by
    rw [sweepBlocks_eq_sweepInstructions]
    exact sweepInstructions_all_false final false _
      (fun j hj => ⟨final, hfalse j (hidx ▸ hj)⟩)
  refine ⟨result, final, hrun, hfinal, fun i hi => hfalse i (hidx ▸ hi), hsecond, ?_⟩
  simp [Run, AnalysisContext.GetLowLevelILFunction, hsecond]

/-- C11, amended, on the function with two unchained instances of the idiom:
after the first `Run` a second `Run` changes nothing and makes no host call. -/
theorem Run_idempotent_unchained_witness :
    ∃ result final, Run ⟨4096, some twoIdiomIR⟩ = some result ∧ result.llil = some final ∧
      (∀ i ∈ sweepIndices final, TryRewriteCSEL final i = some (false, final)) ∧
      sweepBlocks final false final.GetBasicBlocks = some (false, final) ∧
      Run ⟨4096, some final⟩ = some { llil := some final, calls := [] } :=
  Run_idempotent_unchained ⟨4096, some twoIdiomIR⟩ twoIdiomIR rfl
    (by unfold BlocksPartition; decide) (by decide) (by unfold HeadsUnchained; decide)

end ACC
